import Mathlib

/-!
# Buffer2D (exposure-render, `Source/buffer2d.h`)

A shallow embedding of the class template `Buffer2D<T>` and of its
specialisation `RandomSeedBuffer2D`, followed by theorems about them.

Conventions of the embedding.

* C++ `int` values are mathematical integers (`Int`).  Signed overflow, as in
  the product `Resolution[0] * Resolution[1]`, is undefined behaviour in C++,
  so the embedding describes the executions in which that product does not
  overflow.  The conversions between `int` (32 bits) and `size_t` (64 bits),
  which are defined and wrap, are modelled with explicit remainders
  (`toSizeT`, `toInt`): `GetNoBytes` multiplies in `size_t` and narrows the
  product to `int`.
* Host memory is an explicit heap that is passed through every operation.
  A pointer is a natural number, `0` is `NULL`.  An operation whose C++
  counterpart would have undefined behaviour (freeing or dereferencing a
  pointer that is not live, copying past the end of a block, overlapping
  `memcpy`) returns `none`.
* `malloc` returns `NULL` for a request larger than `PTRDIFF_MAX` and
  otherwise succeeds; it hands out storage whose initial contents are
  arbitrary (`Env.junk`).
* Accelerator memory and the functions of the `Cuda` namespace are not part
  of the source file; they are parameters (`CudaApi`).  Whether the
  preprocessor symbol `__CUDA_ARCH__` is defined is the parameter
  `Env.cudaArch`.
* `DebugLog` calls have no effect on the state and are left out.  The name is
  a string held in a character array of `MAX_CHAR_SIZE` characters
  (`Env.MAX_CHAR_SIZE`); when the formatted text with its terminator does not
  fit, `sprintf_s` puts a terminator at the start of the array and calls the
  invalid-parameter handler, which is taken to return: the name is then the
  empty string and execution goes on.
-/

namespace ExposureRender

/-! ## Memory -/

/-- The null pointer.  Addresses of storage are natural numbers. -/
abbrev NULL : Nat := 0

/-- Host heap: slot `p - 1` holds the live block at address `p`, or `none`
once it has been released.  Blocks are lists of elements of type `T`. -/
abbrev Heap (T : Type) := List (Option (List T))

/-- The live block at address `p`, if there is one. -/
def block {T : Type} (h : Heap T) (p : Nat) : Option (List T) :=
  if p = NULL then none else (h.get? (p - 1)).join

/-- Allocation of `n` elements with the given initial contents: the block is
put at a fresh address. -/
def allocBlock {T : Type} (h : Heap T) (blk : List T) : Nat × Heap T :=
  (h.length + 1, h ++ [some blk])

/-- C `free`: `free(NULL)` does nothing, a live block is released, anything
else is undefined. -/
def free {T : Type} (h : Heap T) (p : Nat) : Option (Heap T) :=
  if p = NULL then some h
  else
    match block h p with
    | none => none
    | some _ => some (h.set (p - 1) none)

/-- Overwrite the first `n` elements of the live block at `dst` with the
first `n` elements of `vals`. -/
def hostWrite {T : Type} (h : Heap T) (dst : Nat) (vals : List T) (n : Nat) : Option (Heap T) :=
  match block h dst with
  | none => none
  | some d =>
    if n ≤ d.length ∧ n ≤ vals.length then
      some (h.set (dst - 1) (some (vals.take n ++ d.drop n)))
    else none

/-- A reference `T&` into storage: base pointer and element offset. -/
structure Ref where
  base : Nat
  offset : Int
  deriving DecidableEq, Repr

/-- Reading through a reference into host memory. -/
def deref {T : Type} (h : Heap T) (r : Ref) : Option T :=
  match block h r.base with
  | none => none
  | some blk => if 0 ≤ r.offset then blk.get? r.offset.toNat else none

/-- Writing through a reference into host memory (`p[i] = v`). -/
def storeElem {T : Type} (h : Heap T) (p : Nat) (i : Nat) (v : T) : Option (Heap T) :=
  match block h p with
  | none => none
  | some blk => if i < blk.length then some (h.set (p - 1) (some (blk.set i v))) else none

/-! ## Collaborators that are not in the source file -/

/-- Modelled from the spec: the memory-space enumeration `Enums::MemoryType`
(declared outside `buffer2d.h`), with the two spaces host and device. -/
inductive MemoryType where
  | Host
  | Device
  deriving DecidableEq, Repr

/-- Modelled from the spec: the value type `Vec2i` (declared outside
`buffer2d.h`), an ordered pair of `int` with component-wise equality;
`Resolution[0]` is `x` (width) and `Resolution[1]` is `y` (height). -/
structure Vec2i where
  x : Int
  y : Int
  deriving DecidableEq, Repr

/-- The value `Vec2i(0)`: both components zero. -/
def Vec2i.zero : Vec2i := ⟨0, 0⟩

/-- The functions of the `Cuda` namespace that `buffer2d.h` calls, over an
abstract accelerator memory `D`.  Pointer arguments that the callee may
update (they are passed as `this->Data`) are returned.  Host-side data is
passed and returned as a list of elements. -/
structure CudaApi (T D : Type) where
  Free : Nat → D → Option (Nat × D)
  Allocate : Nat → Int → D → Option (Nat × D)
  MemSet : Nat → Int → Int → D → Option D
  MemCopyDeviceToHost : Nat → Int → D → Option (List T)
  MemCopyHostToDevice : List T → Nat → Int → D → Option D
  MemCopyDeviceToDevice : Nat → Nat → Int → D → Option D

/-- Everything the code depends on and that is fixed during a run. -/
structure Env (T D : Type) where
  /-- The value of `sizeof(T)`. -/
  sizeofT : Nat
  sizeofT_pos : 0 < sizeofT
  /-- The value of `T` whose bytes are all zero. -/
  zero : T
  /-- Contents of uninitialised storage, by element position. -/
  junk : Nat → T
  /-- Whether `__CUDA_ARCH__` is defined. -/
  cudaArch : Bool
  cuda : CudaApi T D
  /-- The values returned by successive calls of `rand()`. -/
  rand : Nat → Int
  /-- The constant `MAX_CHAR_SIZE` (defined outside `buffer2d.h`): the capacity
  of the character array `Name`. -/
  MAX_CHAR_SIZE : Nat

/-- The mutable world outside the buffer object. -/
structure World (T D : Type) where
  heap : Heap T
  dev : D
  /-- The number of calls of `rand()` made so far. -/
  randCalls : Nat

/-- The largest value of `int` (32 bits). -/
def INT_MAX : Int := 2147483647

/-- The largest value of `ptrdiff_t` (64 bits), beyond which `malloc` fails. -/
def PTRDIFF_MAX : Nat := 9223372036854775807

/-- Conversion of an `int` to `size_t` (64 bits): the value modulo `2^64`. -/
def toSizeT (v : Int) : Nat := (v % 18446744073709551616).toNat

/-- Conversion of a `size_t` to `int` (32 bits, two's complement): the value
modulo `2^32`, read as a signed number. -/
def toInt (n : Nat) : Int :=
  if n % 4294967296 < 2147483648 then ((n % 4294967296 : Nat) : Int)
  else ((n % 4294967296 : Nat) : Int) - 4294967296

/-- Number of whole elements in a byte count. -/
def elemsOfBytes {T D : Type} (env : Env T D) (size : Nat) : Nat :=
  size / env.sizeofT

/-- C `malloc(size)`: `NULL` when the request exceeds `PTRDIFF_MAX`, otherwise
a fresh block of uninitialised elements. -/
def malloc {T D : Type} (env : Env T D) (h : Heap T) (size : Nat) : Nat × Heap T :=
  if PTRDIFF_MAX < size then (NULL, h)
  else allocBlock h ((List.range (elemsOfBytes env size)).map env.junk)

/-- C `memset(p, 0, size)`. -/
def memset {T D : Type} (env : Env T D) (h : Heap T) (p : Nat) (size : Nat) : Option (Heap T) :=
  match block h p with
  | none => none
  | some d =>
    if elemsOfBytes env size ≤ d.length then
      some (h.set (p - 1)
        (some (List.replicate (elemsOfBytes env size) env.zero ++ d.drop (elemsOfBytes env size))))
    else none

/-- C `memcpy(dst, src, size)`; the two blocks must be distinct. -/
def memcpy {T D : Type} (env : Env T D) (h : Heap T) (dst src : Nat) (size : Nat) : Option (Heap T) :=
  match block h src with
  | none => none
  | some s => if dst = src then none else hostWrite h dst s (elemsOfBytes env size)

/-! ## Buffer2D -/

/-- The object state of a `Buffer2D<T>`: the fields inherited from
`Buffer<T>` that the code uses (`MemoryType`, `Name`, `Data`, `NoElements`,
`Dirty`) and its own field `Resolution`. -/
structure Buffer2D where
  MemoryType : MemoryType
  Name : String
  Data : Nat
  NoElements : Int
  Dirty : Bool
  Resolution : Vec2i
  deriving DecidableEq, Repr

variable {T D : Type}

/-- Source `GetNoElements`. -/
def GetNoElements (b : Buffer2D) : Int := b.NoElements

/-- Source `GetNoBytes`: `GetNoElements() * sizeof(T)`.  The element count is
converted to `size_t`, the product is taken in `size_t` and the result is
narrowed to the return type `int`. -/
def GetNoBytes (env : Env T D) (b : Buffer2D) : Int :=
  toInt (toSizeT (GetNoElements b) * env.sizeofT % 18446744073709551616)

/-- Source `GetData`. -/
def GetData (b : Buffer2D) : Nat := b.Data

/-- Lines 66-78 of `Free`: release of the storage. -/
def FreeData (env : Env T D) (b : Buffer2D) (w : World T D) : Option (Buffer2D × World T D) :=
  if b.Data = NULL then some (b, w)
  else
    match b.MemoryType with
    | .Host =>
      match free w.heap b.Data with
      | none => none
      | some h => some ({ b with Data := NULL }, { w with heap := h })
    | .Device =>
      if env.cudaArch then
        match env.cuda.Free b.Data w.dev with
        | none => none
        | some (p, d) => some ({ b with Data := p }, { w with dev := d })
      else some (b, w)

/-- Source `Free`. -/
def Free (env : Env T D) (b : Buffer2D) (w : World T D) : Option (Buffer2D × World T D) :=
  match FreeData env b w with
  | none => none
  | some (b1, w1) =>
    some ({ b1 with Resolution := Vec2i.zero, NoElements := 0, Dirty := true }, w1)

/-- Source `Reset`. -/
def Reset (env : Env T D) (b : Buffer2D) (w : World T D) : Option (Buffer2D × World T D) :=
  if GetNoElements b ≤ 0 then some (b, w)
  else
    match b.MemoryType with
    | .Host =>
      match memset env w.heap b.Data (toSizeT (GetNoBytes env b)) with
      | none => none
      | some h => some ({ b with Dirty := true }, { w with heap := h })
    | .Device =>
      if env.cudaArch then
        match env.cuda.MemSet b.Data 0 (GetNoElements b) w.dev with
        | none => none
        | some d => some ({ b with Dirty := true }, { w with dev := d })
      else some ({ b with Dirty := true }, w)

/-- Lines 127-133 of `Resize`: allocation of the storage. -/
def AllocData (env : Env T D) (b : Buffer2D) (w : World T D) : Option (Buffer2D × World T D) :=
  match b.MemoryType with
  | .Host =>
    some ({ b with Data := (malloc env w.heap (toSizeT (GetNoBytes env b))).1 },
          { w with heap := (malloc env w.heap (toSizeT (GetNoBytes env b))).2 })
  | .Device =>
    if env.cudaArch then
      match env.cuda.Allocate b.Data (GetNoElements b) w.dev with
      | none => none
      | some (p, d) => some ({ b with Data := p }, { w with dev := d })
    else some (b, w)

/-- Source `Resize`. -/
def Resize (env : Env T D) (Resolution : Vec2i) (b : Buffer2D) (w : World T D) :
    Option (Buffer2D × World T D) :=
  if b.Resolution = Resolution then some (b, w)
  else
    match Free env b w with
    | none => none
    | some (b1, w1) =>
      if Resolution.x * Resolution.y ≤ 0 then
        some ({ b1 with Resolution := Resolution, NoElements := Resolution.x * Resolution.y }, w1)
      else
        match AllocData env
            { b1 with Resolution := Resolution, NoElements := Resolution.x * Resolution.y } w1 with
        | none => none
        | some (b2, w2) => Reset env b2 w2

/-- Lines 147-167 of `Set`: the transfer of the contents, chosen by the pair
of memory spaces. -/
def CopyData (env : Env T D) (MemoryType : MemoryType) (Data : Nat) (b : Buffer2D)
    (w : World T D) : Option (World T D) :=
  match b.MemoryType, MemoryType with
  | .Host, .Host =>
    match memcpy env w.heap b.Data Data (toSizeT (GetNoBytes env b)) with
    | none => none
    | some h => some { w with heap := h }
  | .Host, .Device =>
    if env.cudaArch then
      match env.cuda.MemCopyDeviceToHost Data (GetNoElements b) w.dev with
      | none => none
      | some vals =>
        match hostWrite w.heap b.Data vals (GetNoElements b).toNat with
        | none => none
        | some h => some { w with heap := h }
    else some w
  | .Device, .Host =>
    if env.cudaArch then
      match block w.heap Data with
      | none => none
      | some vals =>
        match env.cuda.MemCopyHostToDevice vals b.Data (GetNoElements b) w.dev with
        | none => none
        | some d => some { w with dev := d }
    else some w
  | .Device, .Device =>
    if env.cudaArch then
      match env.cuda.MemCopyDeviceToDevice Data b.Data (GetNoElements b) w.dev with
      | none => none
      | some d => some { w with dev := d }
    else some w

/-- Source `Set`. -/
def Set (env : Env T D) (MemoryType : MemoryType) (Resolution : Vec2i) (Data : Nat)
    (b : Buffer2D) (w : World T D) : Option (Buffer2D × World T D) :=
  match Resize env Resolution b w with
  | none => none
  | some (b1, w1) =>
    if b1.NoElements ≤ 0 then some (b1, w1)
    else
      match CopyData env MemoryType Data b1 w1 with
      | none => none
      | some w2 => some ({ b1 with Dirty := true }, w2)

/-- Source `Destroy`. -/
def Destroy (env : Env T D) (b : Buffer2D) (w : World T D) : Option (Buffer2D × World T D) :=
  match Resize env Vec2i.zero b w with
  | none => none
  | some (b1, w1) => some ({ b1 with Dirty := true }, w1)

/-- The call `sprintf_s(this->Name, MAX_CHAR_SIZE, "Copy of %s", Other.Name)`
of line 57: the formatted text when it fits, with its terminator, in
`MAX_CHAR_SIZE` characters; otherwise `sprintf_s` puts a terminator at the
start of the array, which leaves the empty string (the invalid-parameter
handler it then calls is taken to return). -/
def sprintfCopyOf (env : Env T D) (name : String) : String :=
  if ("Copy of " ++ name).length < env.MAX_CHAR_SIZE then "Copy of " ++ name else ""

/-- Source `operator=`, for a source object `Other` distinct from the
destination `this`.  The result is the destination, the source (whose
`Dirty` flag the code clears) and the world. -/
def assign (env : Env T D) (this Other : Buffer2D) (w : World T D) :
    Option (Buffer2D × Buffer2D × World T D) :=
  if Other.Dirty then
    match Set env Other.MemoryType Other.Resolution Other.Data this w with
    | none => none
    | some (t1, w1) =>
      some ({ t1 with Name := sprintfCopyOf env Other.Name }, { Other with Dirty := false }, w1)
  else some ({ this with Name := sprintfCopyOf env Other.Name }, Other, w)

/-- Source `operator()(x, y)`: the cell `Data[y * Resolution[0] + x]`. -/
def at2 (b : Buffer2D) (x y : Int) : Ref := ⟨b.Data, y * b.Resolution.x + x⟩

/-- Source `operator()(xy)`: the cell `Data[xy[1] * Resolution[0] + xy[0]]`. -/
def atVec (b : Buffer2D) (xy : Vec2i) : Ref := ⟨b.Data, xy.y * b.Resolution.x + xy.x⟩

/-- Source `operator[](i)`: the cell `Data[i]`. -/
def atIndex (b : Buffer2D) (i : Int) : Ref := ⟨b.Data, i⟩

/-- Modelled from the spec: the state right after construction.  The
constructor of the base class `Buffer<T>` is not in the source file; following
the spec it creates an empty buffer (no storage, element count 0), and
`Buffer2D` itself sets `Resolution(0)`.  The initial value of `Dirty` is not
determined by the source file and is an argument. -/
def construct (MemoryType : MemoryType) (pName : String) (dirty : Bool) : Buffer2D :=
  { MemoryType := MemoryType, Name := pName, Data := NULL, NoElements := 0, Dirty := dirty,
    Resolution := Vec2i.zero }

/-! ## RandomSeedBuffer2D -/

/-- Conversion of an `int` to `unsigned int` (32 bits). -/
def toUnsigned (v : Int) : Nat := (v % 4294967296).toNat

/-- C++ `new unsigned int[n]`: a negative length is an error, otherwise a
fresh block of `n` uninitialised elements. -/
def newArray (env : Env T D) (h : Heap T) (n : Int) : Option (Nat × Heap T) :=
  if n < 0 then none else some (allocBlock h ((List.range n.toNat).map env.junk))

/-- The loop `for (int i = 0; i < NoSeeds; i++) pSeeds[i] = rand();` with
`k` iterations to go and loop counter `i`. -/
def seedLoop (env : Env Nat D) (pSeeds : Nat) : Nat → Nat → World Nat D → Option (World Nat D)
  | 0, _, w => some w
  | k + 1, i, w =>
    match storeElem w.heap pSeeds i (toUnsigned (env.rand w.randCalls)) with
    | none => none
    | some h => seedLoop env pSeeds k (i + 1) { w with heap := h, randCalls := w.randCalls + 1 }

/-- Source `RandomSeedBuffer2D::Resize`. -/
def RandomSeedBuffer2D.Resize (env : Env Nat D) (Resolution : Vec2i) (b : Buffer2D)
    (w : World Nat D) : Option (Buffer2D × World Nat D) :=
  match newArray env w.heap (Resolution.x * Resolution.y) with
  | none => none
  | some (pSeeds, h) =>
    match seedLoop env pSeeds (Resolution.x * Resolution.y).toNat 0 { w with heap := h } with
    | none => none
    | some w1 =>
      match Set env MemoryType.Host Resolution pSeeds b w1 with
      | none => none
      | some (b2, w2) =>
        match free w2.heap pSeeds with
        | none => none
        | some h3 => some (b2, { w2 with heap := h3 })

/-! ## Sequences of operations -/

/-- The operations a client can apply to a buffer.  `assignFrom` is the
assignment `this = Other` from another buffer object. -/
inductive Op where
  | free
  | destroy
  | reset
  | resize (Resolution : Vec2i)
  | set (MemoryType : MemoryType) (Resolution : Vec2i) (Data : Nat)
  | assignFrom (Other : Buffer2D)

/-- One operation applied to the buffer. -/
def step (env : Env T D) (op : Op) (s : Buffer2D × World T D) : Option (Buffer2D × World T D) :=
  match op with
  | .free => Free env s.1 s.2
  | .destroy => Destroy env s.1 s.2
  | .reset => Reset env s.1 s.2
  | .resize r => Resize env r s.1 s.2
  | .set m r p => Set env m r p s.1 s.2
  | .assignFrom o =>
    match assign env s.1 o s.2 with
    | none => none
    | some (t, _, w) => some (t, w)

/-- A sequence of operations applied from left to right. -/
def run (env : Env T D) : List Op → Buffer2D × World T D → Option (Buffer2D × World T D)
  | [], s => some s
  | op :: ops, s =>
    match step env op s with
    | none => none
    | some s1 => run env ops s1

/-! ## Validity of a host buffer -/

/-- The heap after the block at `p` (if `p` is not null) has been released. -/
def released (h : Heap T) (p : Nat) : Heap T :=
  if p = NULL then h else h.set (p - 1) none

/-- The invariants of the data model for a host buffer: it lives in host
memory, its element count is the product of its resolution, it has no
storage when the count is not positive, and otherwise its byte count fits in
an `int` and `Data` is a live block of the heap with room for that many
elements. -/
def HostValid (env : Env T D) (b : Buffer2D) (w : World T D) : Prop :=
  b.MemoryType = MemoryType.Host ∧
  b.NoElements = b.Resolution.x * b.Resolution.y ∧
  (b.NoElements ≤ 0 → b.Data = NULL) ∧
  (0 < b.NoElements →
    b.NoElements * (env.sizeofT : Int) ≤ INT_MAX ∧
    ∃ blk, block w.heap b.Data = some blk ∧ b.NoElements.toNat ≤ blk.length)

/-- What every state of a buffer keeps in host compilation, whatever shapes
are requested: a host buffer has no storage when its count is not positive and
a live block otherwise; a device buffer has a null handle. -/
def Stored (b : Buffer2D) (w : World T D) : Prop :=
  (b.MemoryType = MemoryType.Host ∧ (b.NoElements ≤ 0 → b.Data = NULL) ∧
    (0 < b.NoElements → ∃ blk, block w.heap b.Data = some blk)) ∨
  (b.MemoryType = MemoryType.Device ∧ b.Data = NULL)

/-- The size invariant of the data model. -/
def SizeInv (b : Buffer2D) : Prop := b.NoElements = b.Resolution.x * b.Resolution.y

/-- The storage invariant of the data model: the data handle is not null
exactly when the element count is positive. -/
def StorageInv (b : Buffer2D) : Prop := b.Data ≠ NULL ↔ 0 < b.NoElements

/-- What the spec expects of the two `Cuda` functions that manage the data
handle: `Cuda::Free` leaves the handle null and `Cuda::Allocate` leaves it
non-null. -/
def CudaSane (api : CudaApi T D) : Prop :=
  (∀ p d p1 d1, api.Free p d = some (p1, d1) → p1 = NULL) ∧
  (∀ p n d p1 d1, api.Allocate p n d = some (p1, d1) → p1 ≠ NULL)

instance (b : Buffer2D) : Decidable (SizeInv b) :=
  inferInstanceAs (Decidable (b.NoElements = b.Resolution.x * b.Resolution.y))

instance (b : Buffer2D) : Decidable (StorageInv b) :=
  inferInstanceAs (Decidable (b.Data ≠ NULL ↔ 0 < b.NoElements))

instance (env : Env T D) (b : Buffer2D) (w : World T D) : Decidable (HostValid env b w) :=
  inferInstanceAs (Decidable (
    b.MemoryType = MemoryType.Host ∧
    b.NoElements = b.Resolution.x * b.Resolution.y ∧
    (b.NoElements ≤ 0 → b.Data = NULL) ∧
    (0 < b.NoElements →
      b.NoElements * (env.sizeofT : Int) ≤ INT_MAX ∧
      ∃ blk, blk ∈ block w.heap b.Data ∧ b.NoElements.toNat ≤ blk.length)))

/-! ## Concrete instances used to evaluate the definitions -/

/-- A `Cuda` interface in which every call fails. -/
def cudaNone (T : Type) : CudaApi T Unit :=
  { Free := fun _ _ => none
    Allocate := fun _ _ _ => none
    MemSet := fun _ _ _ _ => none
    MemCopyDeviceToHost := fun _ _ _ => none
    MemCopyHostToDevice := fun _ _ _ _ => none
    MemCopyDeviceToDevice := fun _ _ _ _ => none }

/-- Host compilation (`__CUDA_ARCH__` undefined) of `Buffer2D<int>`. -/
def envInt : Env Int Unit :=
  { sizeofT := 4
    sizeofT_pos := by decide
    zero := 0
    junk := fun i => 7 + (i : Int)
    cudaArch := false
    cuda := cudaNone Int
    rand := fun i => 41 + 2 * (i : Int)
    MAX_CHAR_SIZE := 256 }

/-- Host compilation of `Buffer2D<unsigned int>`. -/
def envSeed : Env Nat Unit :=
  { sizeofT := 4
    sizeofT_pos := by decide
    zero := 0
    junk := fun i => 7 + i
    cudaArch := false
    cuda := cudaNone Nat
    rand := fun i => 41 + 2 * (i : Int)
    MAX_CHAR_SIZE := 256 }

/-- A world whose heap holds the array `[0..11]` at address 1. -/
def worldSrc : World Int Unit :=
  { heap := [some [0, 1, 2, 3, 4, 5, 6, 7, 8, 9, 10, 11]], dev := (), randCalls := 0 }

/-- A host buffer of resolution (4,3) that owns the block `[0..11]` at
address 1, as left by `Set(Host, (4,3), src)`. -/
def bufFull : Buffer2D :=
  { MemoryType := MemoryType.Host, Name := "A", Data := 1, NoElements := 12, Dirty := true,
    Resolution := ⟨4, 3⟩ }

/-- The spec's description of `Destroy`: `Resize((0,0))`, after which the dirty
flag is forced to true. -/
def DestroySpec (env : Env T D) (b : Buffer2D) (w : World T D) : Option (Buffer2D × World T D) :=
  (Resize env Vec2i.zero b w).map fun s => ({ s.1 with Dirty := true }, s.2)

/-- Source copy constructor `Buffer2D(const Buffer2D& Other)`: the base class
is default-constructed, `Resolution(0)` is set, and then `*this = Other` is
executed.  The memory type, the name and the dirty flag that the default
constructor of `Buffer<T>` (not in the source file) gives the new object are
arguments.  The result is the new object, the source and the world. -/
def copyConstruct (env : Env T D) (MemoryType0 : MemoryType) (pName0 : String) (dirty0 : Bool)
    (Other : Buffer2D) (w : World T D) : Option (Buffer2D × Buffer2D × World T D) :=
  assign env (construct MemoryType0 pName0 dirty0) Other w

/-- A world whose heap holds, at address 1, a source array of `2^29` elements
of `int`, all zero. -/
def worldBig : World Int Unit :=
  { heap := [some (List.replicate 536870912 0)], dev := (), randCalls := 0 }

/-- A clean host buffer like `bufFull` whose name has 250 characters; with
`MAX_CHAR_SIZE = 256` it fits in the character array, "Copy of " followed by
it does not. -/
def bufLongName : Buffer2D :=
  { bufFull with Dirty := false, Name := String.mk (List.replicate 250 'a') }

/-! ## Lemmas about the heap -/

theorem block_null (h : Heap T) : block h NULL = none := by
  simp [block]

theorem block_some_pos {h : Heap T} {p : Nat} {blk : List T} (hb : block h p = some blk) :
    1 ≤ p ∧ p ≤ h.length := by
  unfold block at hb
  split at hb
  · simp at hb
  · rename_i hp
    have hp0 : p ≠ 0 := hp
    refine ⟨by omega, ?_⟩
    by_contra hlt
    have : h.length ≤ p - 1 := by omega
    simp [List.getElem?_eq_none this] at hb

theorem block_append_of_le (h : Heap T) (x : Option (List T)) {p : Nat} (hp : p ≤ h.length) :
    block (h ++ [x]) p = block h p := by
  unfold block
  split
  · rfl
  · rename_i hp0
    have hp0 : p ≠ 0 := hp0
    have : p - 1 < h.length := by omega
    simp [List.getElem?_append_left this]

theorem block_append_new (h : Heap T) (x : Option (List T)) :
    block (h ++ [x]) (h.length + 1) = x := by
  simp [block]

theorem block_set_same {h : Heap T} {p : Nat} (hp1 : 1 ≤ p) (hp2 : p ≤ h.length)
    (v : Option (List T)) : block (h.set (p - 1) v) p = v := by
  have hp0 : p ≠ 0 := by omega
  have : p - 1 < h.length := by omega
  simp [block, hp0, List.getElem?_set_self this]

theorem block_set_other (h : Heap T) {p q : Nat} (hq : q ≠ p) (hp : 1 ≤ p)
    (v : Option (List T)) : block (h.set (p - 1) v) q = block h q := by
  unfold block
  split
  · rfl
  · rename_i hq0
    have hq0 : q ≠ 0 := hq0
    have : p - 1 ≠ q - 1 := by omega
    simp [List.getElem?_set_ne this]

theorem released_length (h : Heap T) (p : Nat) : (released h p).length = h.length := by
  unfold released; split <;> simp

theorem block_released_other (h : Heap T) {p q : Nat} (hq : q ≠ p) :
    block (released h p) q = block h q := by
  unfold released
  split
  · rfl
  · rename_i hp
    have hp0 : p ≠ 0 := hp
    exact block_set_other h hq (by omega) none

theorem set_length_append (h : Heap T) (x y : Option (List T)) :
    (h ++ [x]).set h.length y = h ++ [y] := by
  simp [List.set_append]

/-! ## Byte counts -/

theorem toSizeT_bytes (env : Env T D) (n : Int) (h0 : 0 ≤ n)
    (hfit : n * (env.sizeofT : Int) ≤ INT_MAX) :
    toSizeT (toInt (toSizeT n * env.sizeofT % 18446744073709551616))
      = n.toNat * env.sizeofT := by
  have hs := env.sizeofT_pos
  obtain ⟨k, hk⟩ : ∃ k : Nat, n = (k : Int) := ⟨_, (Int.toNat_of_nonneg h0).symm⟩
  have hks : k * env.sizeofT ≤ 2147483647 := by
    rw [hk] at hfit
    unfold INT_MAX at hfit
    exact_mod_cast hfit
  have hkle : k ≤ k * env.sizeofT := Nat.le_mul_of_pos_right k hs
  have h1 : toSizeT (k : Int) = k := by
    unfold toSizeT
    omega
  simp only [hk, h1, Int.toNat_ofNat]
  generalize k * env.sizeofT = m at hks hkle
  unfold toSizeT toInt
  have hm1 : m % 18446744073709551616 = m := Nat.mod_eq_of_lt (by omega)
  have hm2 : m % 4294967296 = m := Nat.mod_eq_of_lt (by omega)
  rw [hm1, hm2, if_pos (by omega)]
  omega

theorem bytes_not_huge (env : Env T D) (n : Int) (h0 : 0 ≤ n)
    (hfit : n * (env.sizeofT : Int) ≤ INT_MAX) :
    ¬ PTRDIFF_MAX < n.toNat * env.sizeofT := by
  obtain ⟨k, hk⟩ : ∃ k : Nat, n = (k : Int) := ⟨_, (Int.toNat_of_nonneg h0).symm⟩
  have hks : k * env.sizeofT ≤ 2147483647 := by
    rw [hk] at hfit
    unfold INT_MAX at hfit
    exact_mod_cast hfit
  rw [hk, Int.toNat_ofNat]
  unfold PTRDIFF_MAX
  omega

theorem elems_bytes (env : Env T D) (k : Nat) : elemsOfBytes env (k * env.sizeofT) = k := by
  rw [elemsOfBytes, Nat.mul_div_cancel _ env.sizeofT_pos]

/-- Within the range of `int` the byte count is the exact product. -/
theorem GetNoBytes_fit (env : Env T D) (b : Buffer2D) (h0 : 0 ≤ b.NoElements)
    (hfit : b.NoElements * (env.sizeofT : Int) ≤ INT_MAX) :
    GetNoBytes env b = b.NoElements * (env.sizeofT : Int) := by
  have hs := env.sizeofT_pos
  obtain ⟨k, hk⟩ : ∃ k : Nat, b.NoElements = (k : Int) := ⟨_, (Int.toNat_of_nonneg h0).symm⟩
  have hks : k * env.sizeofT ≤ 2147483647 := by
    rw [hk] at hfit
    unfold INT_MAX at hfit
    exact_mod_cast hfit
  have hkle : k ≤ k * env.sizeofT := Nat.le_mul_of_pos_right k hs
  have h1 : toSizeT (k : Int) = k := by
    unfold toSizeT
    omega
  simp only [GetNoBytes, GetNoElements, hk, h1]
  have hcast : ((k : Int) * (env.sizeofT : Int)) = ((k * env.sizeofT : Nat) : Int) := by
    push_cast; rfl
  rw [hcast]
  generalize k * env.sizeofT = m at hks hkle
  unfold toInt
  have hm1 : m % 18446744073709551616 = m := Nat.mod_eq_of_lt (by omega)
  have hm2 : m % 4294967296 = m := Nat.mod_eq_of_lt (by omega)
  rw [hm1, hm2, if_pos (by omega)]

/-! ## The operations on a valid host buffer -/

theorem Free_host (env : Env T D) {b : Buffer2D} {w : World T D} (hv : HostValid env b w) :
    Free env b w = some
      ({ b with Data := NULL, Resolution := Vec2i.zero, NoElements := 0, Dirty := true },
       { w with heap := released w.heap b.Data }) := by
  obtain ⟨hm, _, hnull, hlive⟩ := hv
  unfold Free FreeData released
  by_cases hd : b.Data = NULL
  · simp [hd]
  · have hpos : 0 < b.NoElements := by
      by_contra hle
      exact hd (hnull (by omega))
    obtain ⟨_, blk, hblk, _⟩ := hlive hpos
    simp [hd, hm, free, hblk]

theorem Resize_host_empty (env : Env T D) {b : Buffer2D} {w : World T D}
    (hv : HostValid env b w) {r : Vec2i} (hr : b.Resolution ≠ r) (hn : r.x * r.y ≤ 0) :
    Resize env r b w = some
      ({ b with Data := NULL, Resolution := r, NoElements := r.x * r.y, Dirty := true },
       { w with heap := released w.heap b.Data }) := by
  unfold Resize
  simp [hr, Free_host env hv, hn]

theorem Resize_host_alloc (env : Env T D) {b : Buffer2D} {w : World T D}
    (hv : HostValid env b w) {r : Vec2i} (hr : b.Resolution ≠ r) (hn : 0 < r.x * r.y)
    (hfit : r.x * r.y * (env.sizeofT : Int) ≤ INT_MAX) :
    Resize env r b w = some
      ({ b with Data := w.heap.length + 1, Resolution := r, NoElements := r.x * r.y,
                Dirty := true },
       { w with heap := released w.heap b.Data ++
                  [some (List.replicate (r.x * r.y).toNat env.zero)] }) := by
  have hm := hv.1
  have hn2 : ¬ r.x * r.y ≤ 0 := by omega
  have hsz := toSizeT_bytes env (r.x * r.y) hn.le hfit
  have hhuge := bytes_not_huge env (r.x * r.y) hn.le hfit
  unfold Resize
  have hb : ∀ x : Option (List T),
      block (released w.heap b.Data ++ [x]) (List.length w.heap + 1) = x := by
    intro x
    have := block_append_new (released w.heap b.Data) x
    rwa [released_length] at this
  simp [hr, Free_host env hv, hn2, AllocData, hm, Reset, GetNoElements, GetNoBytes, malloc,
    memset, allocBlock, hsz, hhuge, elems_bytes, released_length, set_length_append, hb]

theorem Set_host_same (env : Env T D) {b : Buffer2D} {w : World T D} (hv : HostValid env b w)
    {src : Nat} {vals d : List T} (hpos : 0 < b.NoElements)
    (hsrc : block w.heap src = some vals) (hlen : b.NoElements.toNat ≤ vals.length)
    (hne : src ≠ b.Data) (hd : block w.heap b.Data = some d) :
    Set env MemoryType.Host b.Resolution src b w = some
      ({ b with Dirty := true },
       { w with heap := w.heap.set (b.Data - 1)
                  (some (vals.take b.NoElements.toNat ++ d.drop b.NoElements.toNat)) }) := by
  obtain ⟨hm, _, _, hlive⟩ := hv
  obtain ⟨hfit, blk, hblk, hble⟩ := hlive hpos
  have hdb : d = blk := by
    rw [hd] at hblk
    exact Option.some.inj hblk
  subst hdb
  have hn2 : ¬ b.NoElements ≤ 0 := by omega
  have hne2 : ¬ b.Data = src := fun h => hne h.symm
  have hsz := toSizeT_bytes env b.NoElements hpos.le hfit
  simp [Set, Resize, hn2, CopyData, hm, memcpy, hsrc, hne2, hostWrite, hd, GetNoBytes,
    GetNoElements, hsz, elems_bytes, hble, hlen]

theorem Set_host_fresh (env : Env T D) {b : Buffer2D} {w : World T D} (hv : HostValid env b w)
    {r : Vec2i} (hr : b.Resolution ≠ r) (hn : 0 < r.x * r.y)
    (hfit : r.x * r.y * (env.sizeofT : Int) ≤ INT_MAX)
    {src : Nat} {vals : List T}
    (hsrc : block w.heap src = some vals) (hlen : (r.x * r.y).toNat ≤ vals.length)
    (hne : src ≠ b.Data) :
    Set env MemoryType.Host r src b w = some
      ({ b with Data := w.heap.length + 1, Resolution := r, NoElements := r.x * r.y,
                Dirty := true },
       { w with heap := released w.heap b.Data ++
                  [some (vals.take (r.x * r.y).toNat)] }) := by
  have hn2 : ¬ r.x * r.y ≤ 0 := by omega
  have hsl := (block_some_pos hsrc).2
  have hne2 : ¬ w.heap.length + 1 = src := by omega
  have hsz := toSizeT_bytes env (r.x * r.y) hn.le hfit
  have hb : ∀ x : Option (List T),
      block (released w.heap b.Data ++ [x]) (List.length w.heap + 1) = x := by
    intro x
    have := block_append_new (released w.heap b.Data) x
    rwa [released_length] at this
  have hs : ∀ x : Option (List T),
      block (released w.heap b.Data ++ [x]) src = some vals := by
    intro x
    rw [block_append_of_le _ _ (by rw [released_length]; exact hsl),
      block_released_other _ hne, hsrc]
  simp [Set, Resize_host_alloc env hv hr hn hfit, hn2, CopyData, hv.1, memcpy, hs, hne2,
    hostWrite, hb, GetNoBytes, GetNoElements, hsz, elems_bytes, hlen, released_length,
    set_length_append]

theorem Set_host_spec (env : Env T D) {b : Buffer2D} {w : World T D} (hv : HostValid env b w)
    {r : Vec2i} (hn : 0 < r.x * r.y) (hfit : r.x * r.y * (env.sizeofT : Int) ≤ INT_MAX)
    {src : Nat} {vals : List T}
    (hsrc : block w.heap src = some vals) (hlen : (r.x * r.y).toNat ≤ vals.length)
    (hne : src ≠ b.Data) :
    ∃ b1 w1, Set env MemoryType.Host r src b w = some (b1, w1) ∧
      b1 = { b with Data := b1.Data, Resolution := r, NoElements := r.x * r.y, Dirty := true } ∧
      w1.dev = w.dev ∧ w1.randCalls = w.randCalls ∧
      (∃ rest, block w1.heap b1.Data = some (vals.take (r.x * r.y).toNat ++ rest)) ∧
      b1.Data ≠ src ∧
      (∀ q x, q ≠ b.Data → block w.heap q = some x → block w1.heap q = some x) := by
  by_cases hr : b.Resolution = r
  · subst hr
    have hcount := hv.2.1
    have hpos : 0 < b.NoElements := by rw [hcount]; exact hn
    obtain ⟨_, d, hd, _⟩ := hv.2.2.2 hpos
    have hdp := block_some_pos hd
    refine ⟨_, _, Set_host_same env hv hpos hsrc (by rw [hcount]; exact hlen) hne hd,
      ?_, rfl, rfl, ?_, fun h => hne h.symm, ?_⟩
    · cases b
      simp_all
    · refine ⟨d.drop b.NoElements.toNat, ?_⟩
      simp only []
      rw [block_set_same hdp.1 hdp.2, hcount]
    · intro q x hq hx
      simp only []
      rw [block_set_other _ hq hdp.1, hx]
  · have hsl := (block_some_pos hsrc).2
    refine ⟨_, _, Set_host_fresh env hv hr hn hfit hsrc hlen hne, rfl, rfl, rfl, ⟨[], ?_⟩,
      ?_, ?_⟩
    · simp only [List.append_nil]
      have := block_append_new (released w.heap b.Data)
        (some (List.take (r.x * r.y).toNat vals))
      rwa [released_length] at this
    · simp only []
      omega
    · intro q x hq hx
      simp only []
      have hql := (block_some_pos hx).2
      rw [block_append_of_le _ _ (by rw [released_length]; exact hql),
        block_released_other _ hq, hx]

theorem deref_block {h : Heap T} {p : Nat} {blk : List T} (hb : block h p = some blk)
    (i : Int) (hi : 0 ≤ i) : deref h ⟨p, i⟩ = blk.get? i.toNat := by
  simp [deref, hb, hi]
/-! ## Row-major indices -/

theorem index_in_range {wd ht x y : Int} (hx0 : 0 ≤ x) (hx : x < wd) (hy0 : 0 ≤ y)
    (hy : y < ht) : 0 ≤ y * wd + x ∧ y * wd + x < wd * ht := by
  have hwd : 0 < wd := by omega
  constructor
  · have := mul_nonneg hy0 hwd.le
    omega
  · have h1 : (y + 1) * wd ≤ ht * wd := mul_le_mul_of_nonneg_right (by omega) hwd.le
    nlinarith

theorem get?_take_append {vals rest : List T} {n i : Nat} (hi : i < n) (hn : n ≤ vals.length) :
    (vals.take n ++ rest).get? i = vals.get? i := by
  have h1 : i < (vals.take n).length := by
    rw [List.length_take]; omega
  simp [List.getElem?_append_left h1, List.getElem?_take, hi]
/-! ## The shape of the result of each operation, in every memory space -/

theorem FreeData_shape {env : Env T D} {b b1 : Buffer2D} {w w1 : World T D}
    (h : FreeData env b w = some (b1, w1)) : ∃ p, b1 = { b with Data := p } := by
  unfold FreeData at h
  split at h
  · simp only [Option.some.injEq, Prod.mk.injEq] at h
    exact ⟨b.Data, h.1.symm⟩
  · split at h
    · split at h
      · exact absurd h (by simp)
      · simp only [Option.some.injEq, Prod.mk.injEq] at h
        exact ⟨_, h.1.symm⟩
    · split at h
      · split at h
        · exact absurd h (by simp)
        · simp only [Option.some.injEq, Prod.mk.injEq] at h
          exact ⟨_, h.1.symm⟩
      · simp only [Option.some.injEq, Prod.mk.injEq] at h
        exact ⟨b.Data, h.1.symm⟩

theorem Free_shape {env : Env T D} {b b1 : Buffer2D} {w w1 : World T D}
    (h : Free env b w = some (b1, w1)) :
    ∃ p, b1 = { b with Data := p, Resolution := Vec2i.zero, NoElements := 0, Dirty := true } := by
  unfold Free at h
  split at h
  · exact absurd h (by simp)
  · rename_i b0 w0 h0
    obtain ⟨p, hp⟩ := FreeData_shape h0
    simp only [Option.some.injEq, Prod.mk.injEq] at h
    exact ⟨p, by rw [← h.1, hp]⟩

theorem Reset_shape {env : Env T D} {b b1 : Buffer2D} {w w1 : World T D}
    (h : Reset env b w = some (b1, w1)) : ∃ d, b1 = { b with Dirty := d } := by
  unfold Reset at h
  split at h
  · simp only [Option.some.injEq, Prod.mk.injEq] at h
    exact ⟨b.Dirty, h.1.symm⟩
  · split at h
    · split at h
      · exact absurd h (by simp)
      · simp only [Option.some.injEq, Prod.mk.injEq] at h
        exact ⟨_, h.1.symm⟩
    · split at h
      · split at h
        · exact absurd h (by simp)
        · simp only [Option.some.injEq, Prod.mk.injEq] at h
          exact ⟨_, h.1.symm⟩
      · simp only [Option.some.injEq, Prod.mk.injEq] at h
        exact ⟨_, h.1.symm⟩

theorem AllocData_shape {env : Env T D} {b b1 : Buffer2D} {w w1 : World T D}
    (h : AllocData env b w = some (b1, w1)) : ∃ p, b1 = { b with Data := p } := by
  unfold AllocData at h
  split at h
  · simp only [Option.some.injEq, Prod.mk.injEq] at h
    exact ⟨_, h.1.symm⟩
  · split at h
    · split at h
      · exact absurd h (by simp)
      · simp only [Option.some.injEq, Prod.mk.injEq] at h
        exact ⟨_, h.1.symm⟩
    · simp only [Option.some.injEq, Prod.mk.injEq] at h
      exact ⟨b.Data, h.1.symm⟩

theorem Resize_shape {env : Env T D} {r : Vec2i} {b b1 : Buffer2D} {w w1 : World T D}
    (h : Resize env r b w = some (b1, w1)) :
    (b.Resolution = r ∧ b1 = b ∧ w1 = w) ∨
    (b.Resolution ≠ r ∧
      ∃ p d, b1 = { b with Data := p, Resolution := r, NoElements := r.x * r.y, Dirty := d }) := by
  unfold Resize at h
  split at h
  · rename_i hr
    simp only [Option.some.injEq, Prod.mk.injEq] at h
    exact Or.inl ⟨hr, h.1.symm, h.2.symm⟩
  · rename_i hr
    right
    refine ⟨hr, ?_⟩
    split at h
    · exact absurd h (by simp)
    · rename_i b0 w0 h0
      obtain ⟨p, hp⟩ := Free_shape h0
      split at h
      · simp only [Option.some.injEq, Prod.mk.injEq] at h
        exact ⟨p, true, by rw [← h.1, hp]⟩
      · split at h
        · exact absurd h (by simp)
        · rename_i b2 w2 h2
          obtain ⟨q, hq⟩ := AllocData_shape h2
          obtain ⟨d, hd⟩ := Reset_shape h
          exact ⟨q, d, by rw [hd, hq, hp]⟩

theorem Set_shape {env : Env T D} {m : MemoryType} {r : Vec2i} {src : Nat}
    {b b1 : Buffer2D} {w w1 : World T D} (h : Set env m r src b w = some (b1, w1)) :
    ∃ b0 w0 d, Resize env r b w = some (b0, w0) ∧ b1 = { b0 with Dirty := d } := by
  unfold Set at h
  split at h
  · exact absurd h (by simp)
  · rename_i b0 w0 h0
    split at h
    · simp only [Option.some.injEq, Prod.mk.injEq] at h
      exact ⟨b0, w0, b0.Dirty, h0, h.1.symm⟩
    · split at h
      · exact absurd h (by simp)
      · simp only [Option.some.injEq, Prod.mk.injEq] at h
        exact ⟨b0, w0, true, h0, h.1.symm⟩

theorem Destroy_shape {env : Env T D} {b b1 : Buffer2D} {w w1 : World T D}
    (h : Destroy env b w = some (b1, w1)) :
    ∃ b0 w0, Resize env Vec2i.zero b w = some (b0, w0) ∧ b1 = { b0 with Dirty := true } := by
  unfold Destroy at h
  split at h
  · exact absurd h (by simp)
  · rename_i b0 w0 h0
    simp only [Option.some.injEq, Prod.mk.injEq] at h
    exact ⟨b0, w0, h0, h.1.symm⟩

theorem assign_shape {env : Env T D} {this Other t1 o1 : Buffer2D} {w w1 : World T D}
    (h : assign env this Other w = some (t1, o1, w1)) :
    (Other.Dirty = false ∧ t1 = { this with Name := sprintfCopyOf env Other.Name }) ∨
    (Other.Dirty = true ∧ ∃ b0,
      Set env Other.MemoryType Other.Resolution Other.Data this w = some (b0, w1) ∧
      t1 = { b0 with Name := sprintfCopyOf env Other.Name }) := by
  unfold assign at h
  split at h
  · rename_i hd
    split at h
    · exact absurd h (by simp)
    · rename_i b0 w0 h0
      simp only [Option.some.injEq, Prod.mk.injEq] at h
      exact Or.inr ⟨hd, b0, by rw [h0, h.2.2], h.1.symm⟩
  · rename_i hd
    simp only [Option.some.injEq, Prod.mk.injEq] at h
    exact Or.inl ⟨by simpa using hd, h.1.symm⟩

theorem Resize_sizeInv {env : Env T D} {r : Vec2i} {b b1 : Buffer2D} {w w1 : World T D}
    (h : Resize env r b w = some (b1, w1)) (hs : SizeInv b) : SizeInv b1 := by
  rcases Resize_shape h with ⟨_, hb, _⟩ | ⟨_, p, d, hb⟩
  · rw [hb]; exact hs
  · rw [hb]; rfl

theorem step_sizeInv {env : Env T D} {op : Op} {s s1 : Buffer2D × World T D}
    (h : step env op s = some s1) (hs : SizeInv s.1) : SizeInv s1.1 := by
  obtain ⟨b1, w1⟩ := s1
  cases op with
  | free =>
    obtain ⟨p, hp⟩ := Free_shape (show Free env s.1 s.2 = some (b1, w1) from h)
    show SizeInv b1
    rw [hp]; simp [SizeInv, Vec2i.zero]
  | destroy =>
    obtain ⟨b0, w0, h0, hb⟩ := Destroy_shape (show Destroy env s.1 s.2 = some (b1, w1) from h)
    have := Resize_sizeInv h0 hs
    show SizeInv b1
    rw [hb]; exact this
  | reset =>
    obtain ⟨d, hd⟩ := Reset_shape (show Reset env s.1 s.2 = some (b1, w1) from h)
    show SizeInv b1
    rw [hd]; exact hs
  | resize r =>
    exact Resize_sizeInv (show Resize env r s.1 s.2 = some (b1, w1) from h) hs
  | set m r p =>
    obtain ⟨b0, w0, d, h0, hb⟩ := Set_shape (show Set env m r p s.1 s.2 = some (b1, w1) from h)
    have := Resize_sizeInv h0 hs
    show SizeInv b1
    rw [hb]; exact this
  | assignFrom o =>
    simp only [step] at h
    split at h
    · exact absurd h (by simp)
    · rename_i t o1 w2 ha
      simp only [Option.some.injEq, Prod.mk.injEq] at h
      obtain ⟨ht, hw⟩ := h
      subst ht
      subst hw
      show SizeInv t
      rcases assign_shape ha with ⟨_, hb⟩ | ⟨_, b0, h0, hb⟩
      · rw [hb]; exact hs
      · obtain ⟨b00, w00, d, h00, hb0⟩ := Set_shape h0
        have := Resize_sizeInv h00 hs
        rw [hb, hb0]; exact this

theorem run_sizeInv {env : Env T D} (ops : List Op) :
    ∀ (s s1 : Buffer2D × World T D), run env ops s = some s1 → SizeInv s.1 → SizeInv s1.1 := by
  induction ops with
  | nil =>
    intro s s1 h hs
    simp only [run, Option.some.injEq] at h
    rw [← h]; exact hs
  | cons op ops ih =>
    intro s s1 h hs
    simp only [run] at h
    split at h
    · exact absurd h (by simp)
    · rename_i s2 h2
      exact ih s2 s1 h (step_sizeInv h2 hs)
/-! ## Release of the storage of a host buffer -/

/-- `Free` on a host buffer whose handle is null or a live block. -/
theorem Free_host_live (env : Env T D) {b : Buffer2D} {w : World T D}
    (hm : b.MemoryType = MemoryType.Host)
    (hlive : b.Data ≠ NULL → ∃ blk, block w.heap b.Data = some blk) :
    Free env b w = some
      ({ b with Data := NULL, Resolution := Vec2i.zero, NoElements := 0, Dirty := true },
       { w with heap := released w.heap b.Data }) := by
  unfold Free FreeData released
  by_cases hd : b.Data = NULL
  · simp [hd]
  · obtain ⟨blk, hblk⟩ := hlive hd
    simp [hd, hm, free, hblk]

/-- `Destroy` on a host buffer whose handle is null or a live block and which
is empty whenever its resolution is (0,0). -/
theorem Destroy_host_live (env : Env T D) {b : Buffer2D} {w : World T D}
    (hm : b.MemoryType = MemoryType.Host)
    (hlive : b.Data ≠ NULL → ∃ blk, block w.heap b.Data = some blk)
    (hzero : b.Resolution = Vec2i.zero → b.NoElements = 0 ∧ b.Data = NULL) :
    Destroy env b w = some
      ({ b with Data := NULL, Resolution := Vec2i.zero, NoElements := 0, Dirty := true },
       { w with heap := released w.heap b.Data }) := by
  by_cases hr : b.Resolution = Vec2i.zero
  · obtain ⟨hcount, hdata⟩ := hzero hr
    have hres : Resize env Vec2i.zero b w = some (b, w) := by simp [Resize, hr]
    simp only [Destroy, hres, released, hdata, if_true]
    rw [← hr, ← hcount, ← hdata]
  · unfold Destroy Resize
    rw [if_neg hr, Free_host_live env hm hlive]
    simp [Vec2i.zero]
/-! ## Device buffers -/

/-- `Free` on a device buffer when `__CUDA_ARCH__` is not defined: the handle
is left as it was, whatever it was. -/
theorem Free_device_hostpass (env : Env T D) (b : Buffer2D) (w : World T D)
    (hc : env.cudaArch = false) (hm : b.MemoryType = MemoryType.Device) :
    Free env b w = some
      ({ b with Resolution := Vec2i.zero, NoElements := 0, Dirty := true }, w) := by
  unfold Free FreeData
  by_cases hd : b.Data = NULL <;> simp [hd, hm, hc]

/-- `Free` on a device buffer with a non-null handle when `__CUDA_ARCH__` is
defined: the handle afterwards is the one `Cuda::Free` hands back. -/
theorem Free_device_cuda (env : Env T D) (b : Buffer2D) (w : World T D)
    (hc : env.cudaArch = true) (hm : b.MemoryType = MemoryType.Device) (hd : b.Data ≠ NULL) :
    Free env b w = (env.cuda.Free b.Data w.dev).map fun r =>
      ({ b with Data := r.1, Resolution := Vec2i.zero, NoElements := 0, Dirty := true },
       { w with dev := r.2 }) := by
  unfold Free FreeData
  simp only [hd, hm, hc, if_true, if_false]
  cases env.cuda.Free b.Data w.dev <;> rfl

theorem Free_device_sane {env : Env T D} {b b1 : Buffer2D} {w w1 : World T D}
    (hc : env.cudaArch = true) (hs : CudaSane env.cuda) (hm : b.MemoryType = MemoryType.Device)
    (h : Free env b w = some (b1, w1)) :
    b1 = { b with Data := NULL, Resolution := Vec2i.zero, NoElements := 0, Dirty := true } := by
  by_cases hd : b.Data = NULL
  · unfold Free FreeData at h
    simp only [hd, if_true, Option.some.injEq, Prod.mk.injEq] at h
    rw [← h.1, ← hd]
  · rw [Free_device_cuda env b w hc hm hd] at h
    cases hf : env.cuda.Free b.Data w.dev with
    | none => rw [hf] at h; exact absurd h (by simp)
    | some r =>
      rw [hf] at h
      simp only [Option.map_some', Option.some.injEq, Prod.mk.injEq] at h
      have hr : r.1 = NULL := hs.1 b.Data w.dev r.1 r.2 hf
      rw [← h.1, hr]

theorem Resize_device_sane {env : Env T D} {r : Vec2i} {b b1 : Buffer2D} {w w1 : World T D}
    (hc : env.cudaArch = true) (hs : CudaSane env.cuda) (hm : b.MemoryType = MemoryType.Device)
    (hi : StorageInv b) (h : Resize env r b w = some (b1, w1)) : StorageInv b1 := by
  unfold Resize at h
  split at h
  · simp only [Option.some.injEq, Prod.mk.injEq] at h
    rw [← h.1]; exact hi
  · split at h
    · exact absurd h (by simp)
    · rename_i b0 w0 h0
      have hb0 := Free_device_sane hc hs hm h0
      split at h
      · rename_i hle
        simp only [Option.some.injEq, Prod.mk.injEq] at h
        rw [← h.1, hb0]
        simp only [StorageInv]
        constructor
        · intro hne; exact absurd rfl hne
        · intro hpos; omega
      · rename_i hle
        split at h
        · exact absurd h (by simp)
        · rename_i b2 w2 h2
          obtain ⟨d, hd⟩ := Reset_shape h
          unfold AllocData at h2
          rw [hb0] at h2
          simp only [hm, hc, if_true] at h2
          split at h2
          · exact absurd h2 (by simp)
          · rename_i p dv ha
            simp only [Option.some.injEq, Prod.mk.injEq] at h2
            have hp := hs.2 _ _ _ _ _ ha
            rw [hd, ← h2.1]
            simp only [StorageInv]
            constructor
            · intro _; omega
            · intro _; exact hp

theorem step_device_sane {env : Env T D} {op : Op} {s s1 : Buffer2D × World T D}
    (hc : env.cudaArch = true) (hs : CudaSane env.cuda)
    (hm : s.1.MemoryType = MemoryType.Device) (hi : StorageInv s.1)
    (h : step env op s = some s1) :
    s1.1.MemoryType = MemoryType.Device ∧ StorageInv s1.1 := by
  obtain ⟨b1, w1⟩ := s1
  cases op with
  | free =>
    have hb := Free_device_sane hc hs hm (show Free env s.1 s.2 = some (b1, w1) from h)
    show b1.MemoryType = MemoryType.Device ∧ StorageInv b1
    rw [hb]
    exact ⟨hm, by simp [StorageInv]⟩
  | destroy =>
    obtain ⟨b0, w0, h0, hb⟩ := Destroy_shape (show Destroy env s.1 s.2 = some (b1, w1) from h)
    have hi0 := Resize_device_sane hc hs hm hi h0
    have hm0 : b0.MemoryType = s.1.MemoryType := by
      rcases Resize_shape h0 with ⟨_, hb0, _⟩ | ⟨_, p, d, hb0⟩ <;> rw [hb0]
    show b1.MemoryType = MemoryType.Device ∧ StorageInv b1
    rw [hb]
    exact ⟨hm0.trans hm, hi0⟩
  | reset =>
    obtain ⟨d, hd⟩ := Reset_shape (show Reset env s.1 s.2 = some (b1, w1) from h)
    show b1.MemoryType = MemoryType.Device ∧ StorageInv b1
    rw [hd]
    exact ⟨hm, hi⟩
  | resize r =>
    have h0 : Resize env r s.1 s.2 = some (b1, w1) := h
    have hm0 : b1.MemoryType = s.1.MemoryType := by
      rcases Resize_shape h0 with ⟨_, hb0, _⟩ | ⟨_, p, d, hb0⟩ <;> rw [hb0]
    exact ⟨hm0.trans hm, Resize_device_sane hc hs hm hi h0⟩
  | set m r p =>
    obtain ⟨b0, w0, d, h0, hb⟩ := Set_shape (show Set env m r p s.1 s.2 = some (b1, w1) from h)
    have hi0 := Resize_device_sane hc hs hm hi h0
    have hm0 : b0.MemoryType = s.1.MemoryType := by
      rcases Resize_shape h0 with ⟨_, hb0, _⟩ | ⟨_, p, d, hb0⟩ <;> rw [hb0]
    show b1.MemoryType = MemoryType.Device ∧ StorageInv b1
    rw [hb]
    exact ⟨hm0.trans hm, hi0⟩
  | assignFrom o =>
    simp only [step] at h
    split at h
    · exact absurd h (by simp)
    · rename_i t o1 w2 ha
      simp only [Option.some.injEq, Prod.mk.injEq] at h
      show b1.MemoryType = MemoryType.Device ∧ StorageInv b1
      rw [← h.1]
      rcases assign_shape ha with ⟨_, hb⟩ | ⟨_, b0, h0, hb⟩
      · rw [hb]; exact ⟨hm, hi⟩
      · obtain ⟨b00, w00, d, h00, hb0⟩ := Set_shape h0
        have hi0 := Resize_device_sane hc hs hm hi h00
        have hm0 : b00.MemoryType = s.1.MemoryType := by
          rcases Resize_shape h00 with ⟨_, hb1, _⟩ | ⟨_, p, d, hb1⟩ <;> rw [hb1]
        rw [hb, hb0]
        exact ⟨hm0.trans hm, hi0⟩

/-- Storage invariant, device part: when the accelerator branches are compiled
in (`__CUDA_ARCH__` defined) and `Cuda::Free` nulls the handle while
`Cuda::Allocate` sets it to a non-null value, every state reached from a freshly
constructed device buffer satisfies the storage invariant. -/
theorem storage_invariant_device (env : Env T D) (hc : env.cudaArch = true)
    (hs : CudaSane env.cuda) (ops : List Op) :
    ∀ (s s1 : Buffer2D × World T D), run env ops s = some s1 →
      s.1.MemoryType = MemoryType.Device → StorageInv s.1 →
      s1.1.MemoryType = MemoryType.Device ∧ StorageInv s1.1 := by
  induction ops with
  | nil =>
    intro s s1 h hm hi
    simp only [run, Option.some.injEq] at h
    rw [← h]; exact ⟨hm, hi⟩
  | cons op ops ih =>
    intro s s1 h hm hi
    simp only [run] at h
    split at h
    · exact absurd h (by simp)
    · rename_i s2 h2
      obtain ⟨hm2, hi2⟩ := step_device_sane hc hs hm hi h2
      exact ih s2 s1 h hm2 hi2

/-- `Resize` on a device buffer when `__CUDA_ARCH__` is not defined always
completes; it leaves the world and the data handle as they were. -/
theorem Resize_device_hostpass (env : Env T D) (b : Buffer2D) (w : World T D)
    (hc : env.cudaArch = false) (hm : b.MemoryType = MemoryType.Device) (r : Vec2i) :
    ∃ b1, Resize env r b w = some (b1, w) ∧ b1.MemoryType = MemoryType.Device ∧
      b1.Data = b.Data := by
  by_cases hr : b.Resolution = r
  · exact ⟨b, by simp [Resize, hr], hm, rfl⟩
  · by_cases hn : r.x * r.y ≤ 0
    · exact ⟨{ b with Resolution := r, NoElements := r.x * r.y, Dirty := true },
        by simp [Resize, hr, Free_device_hostpass env b w hc hm, hn], hm, rfl⟩
    · exact ⟨{ b with Resolution := r, NoElements := r.x * r.y, Dirty := true },
        by simp [Resize, hr, Free_device_hostpass env b w hc hm, hn, AllocData, hm, hc,
          Reset, GetNoElements], hm, rfl⟩

/-- `Set` on a device buffer when `__CUDA_ARCH__` is not defined always
completes; it leaves the world and the data handle as they were. -/
theorem Set_device_hostpass (env : Env T D) (b : Buffer2D) (w : World T D)
    (hc : env.cudaArch = false) (hm : b.MemoryType = MemoryType.Device) (m : MemoryType)
    (r : Vec2i) (src : Nat) :
    ∃ b1, Set env m r src b w = some (b1, w) ∧ b1.MemoryType = MemoryType.Device ∧
      b1.Data = b.Data := by
  obtain ⟨b0, h0, hm0, hd0⟩ := Resize_device_hostpass env b w hc hm r
  by_cases hn : b0.NoElements ≤ 0
  · exact ⟨b0, by simp [Set, h0, hn], hm0, hd0⟩
  · refine ⟨{ b0 with Dirty := true }, ?_, hm0, hd0⟩
    cases m <;> simp [Set, h0, hn, CopyData, hm0, hc]
/-! ## What every reachable state keeps -/

theorem hostWrite_spec {h h1 : Heap T} {dst n : Nat} {vals : List T}
    (hw : hostWrite h dst vals n = some h1) :
    ∃ d d1, block h dst = some d ∧ block h1 dst = some d1 ∧ d1.length = d.length ∧
      ∀ q, q ≠ dst → block h1 q = block h q := by
  unfold hostWrite at hw
  split at hw
  · exact absurd hw (by simp)
  · rename_i d hd
    split at hw
    · rename_i hle
      simp only [Option.some.injEq] at hw
      subst hw
      have hp := block_some_pos hd
      refine ⟨d, _, hd, block_set_same hp.1 hp.2 _, ?_, ?_⟩
      · simp only [List.length_append, List.length_take, List.length_drop]
        omega
      · intro q hq
        exact block_set_other h hq hp.1 _
    · exact absurd hw (by simp)

theorem memset_spec {env : Env T D} {h h1 : Heap T} {p size : Nat}
    (hm : memset env h p size = some h1) :
    ∃ d d1, block h p = some d ∧ block h1 p = some d1 ∧
      ∀ q, q ≠ p → block h1 q = block h q := by
  unfold memset at hm
  split at hm
  · exact absurd hm (by simp)
  · rename_i d hd
    split at hm
    · simp only [Option.some.injEq] at hm
      subst hm
      have hp := block_some_pos hd
      exact ⟨d, _, hd, block_set_same hp.1 hp.2 _, fun q hq => block_set_other h hq hp.1 _⟩
    · exact absurd hm (by simp)

theorem HostValid_of_heap {env : Env T D} {b : Buffer2D} {w w1 : World T D}
    (hv : HostValid env b w)
    (hh : ∀ d, block w.heap b.Data = some d →
      ∃ d1, block w1.heap b.Data = some d1 ∧ d1.length = d.length) :
    HostValid env b w1 := by
  obtain ⟨hm, hc, hnull, hlive⟩ := hv
  refine ⟨hm, hc, hnull, fun hpos => ?_⟩
  obtain ⟨hfit, d, hd, hle⟩ := hlive hpos
  obtain ⟨d1, hd1, hlen⟩ := hh d hd
  exact ⟨hfit, d1, hd1, by omega⟩

theorem HostValid_storageInv {env : Env T D} {b : Buffer2D} {w : World T D}
    (hv : HostValid env b w) : StorageInv b := by
  obtain ⟨_, _, hnull, hlive⟩ := hv
  constructor
  · intro hd
    by_contra hle
    exact hd (hnull (by omega))
  · intro hpos hd
    obtain ⟨_, blk, hblk, _⟩ := hlive hpos
    rw [hd, block_null] at hblk
    exact absurd hblk (by simp)

theorem memoryType_cases (m : MemoryType) : m = MemoryType.Host ∨ m = MemoryType.Device := by
  cases m
  · exact Or.inl rfl
  · exact Or.inr rfl

/-- A valid host buffer is a stored one. -/
theorem HostValid_stored {env : Env T D} {b : Buffer2D} {w : World T D}
    (hv : HostValid env b w) : Stored b w :=
  Or.inl ⟨hv.1, hv.2.2.1, fun hpos => (hv.2.2.2 hpos).2.imp fun _ h => h.1⟩

theorem Stored_live {b : Buffer2D} {w : World T D} (hs : Stored b w)
    (hm : b.MemoryType = MemoryType.Host) :
    b.Data ≠ NULL → ∃ blk, block w.heap b.Data = some blk := by
  intro hd
  rcases hs with ⟨_, hnull, hlive⟩ | ⟨hdev, _⟩
  · by_cases hpos : 0 < b.NoElements
    · exact hlive hpos
    · exact absurd (hnull (by omega)) hd
  · rw [hm] at hdev
    exact absurd hdev (by simp)

/-- `Free` on a stored buffer completes and leaves the handle null; the
device branch is the one of host compilation. -/
theorem Free_stored (env : Env T D) {b : Buffer2D} {w : World T D} (hs : Stored b w)
    (hc : b.MemoryType = MemoryType.Device → env.cudaArch = false) :
    ∃ w1, Free env b w = some
      ({ b with Data := NULL, Resolution := Vec2i.zero, NoElements := 0, Dirty := true }, w1) := by
  rcases memoryType_cases b.MemoryType with hm | hm
  · exact ⟨_, Free_host_live env hm (Stored_live hs hm)⟩
  · have hd : b.Data = NULL := by
      rcases hs with ⟨hh, _⟩ | ⟨_, hd⟩
      · rw [hm] at hh
        exact absurd hh (by simp)
      · exact hd
    refine ⟨w, ?_⟩
    rw [Free_device_hostpass env b w (hc hm) hm, ← hd]

theorem Reset_stored (env : Env T D) {b b1 : Buffer2D} {w w1 : World T D}
    (hs : Stored b w) (h : Reset env b w = some (b1, w1)) : Stored b1 w1 := by
  obtain ⟨dflag, hb1⟩ := Reset_shape h
  rcases hs with ⟨hm, hnull, hlive⟩ | ⟨hm, hd⟩
  · left
    rw [hb1]
    refine ⟨hm, hnull, fun hpos => ?_⟩
    have hpos1 : 0 < b.NoElements := hpos
    unfold Reset at h
    rw [if_neg (by simp only [GetNoElements]; omega)] at h
    split at h
    · split at h
      · exact absurd h (by simp)
      · rename_i h1 hmem
        simp only [Option.some.injEq, Prod.mk.injEq] at h
        obtain ⟨d, d1, _, hd1, _⟩ := memset_spec hmem
        rw [← h.2]
        exact ⟨d1, hd1⟩
    · rename_i hdev
      rw [hm] at hdev
      exact absurd hdev (by simp)
  · right
    rw [hb1]
    exact ⟨hm, hd⟩

theorem Resize_stored (env : Env T D) {r : Vec2i} {b b1 : Buffer2D} {w w1 : World T D}
    (hs : Stored b w) (hc : b.MemoryType = MemoryType.Device → env.cudaArch = false)
    (h : Resize env r b w = some (b1, w1)) : Stored b1 w1 := by
  rcases memoryType_cases b.MemoryType with hm | hm
  rotate_left
  · obtain ⟨b2, h2, hm2, hd2⟩ := Resize_device_hostpass env b w (hc hm) hm r
    rw [h2] at h
    simp only [Option.some.injEq, Prod.mk.injEq] at h
    have hd : b.Data = NULL := by
      rcases hs with ⟨hh, _⟩ | ⟨_, hd⟩
      · rw [hm] at hh
        exact absurd hh (by simp)
      · exact hd
    right
    rw [← h.1]
    exact ⟨hm2, hd2.trans hd⟩
  · left
    unfold Resize at h
    split at h
    · simp only [Option.some.injEq, Prod.mk.injEq] at h
      rw [← h.1, ← h.2]
      rcases hs with hh | ⟨hdev, _⟩
      · exact hh
      · rw [hm] at hdev
        exact absurd hdev (by simp)
    · rw [Free_host_live env hm (Stored_live hs hm)] at h
      simp only at h
      split at h
      · rename_i hle
        simp only [Option.some.injEq, Prod.mk.injEq] at h
        rw [← h.1]
        exact ⟨hm, fun _ => rfl, fun hpos => absurd hpos (by simpa using hle)⟩
      · rename_i hle
        split at h
        · exact absurd h (by simp)
        · rename_i b2 w2 h2
          obtain ⟨p, hp⟩ := AllocData_shape h2
          obtain ⟨dflag, hb1⟩ := Reset_shape h
          have hpos : 0 < r.x * r.y := by omega
          have hm2 : b2.MemoryType = MemoryType.Host := by rw [hp]; exact hm
          have hn2 : b2.NoElements = r.x * r.y := by rw [hp]
          have hlive : ∃ d1, block w1.heap b2.Data = some d1 := by
            unfold Reset at h
            rw [if_neg (by simp only [GetNoElements]; omega), hm2] at h
            simp only at h
            split at h
            · exact absurd h (by simp)
            · rename_i h1 hmem
              simp only [Option.some.injEq, Prod.mk.injEq] at h
              obtain ⟨d, d1, _, hd1, _⟩ := memset_spec hmem
              rw [← h.2]
              exact ⟨d1, hd1⟩
          rw [hb1]
          refine ⟨hm2, fun hle0 => ?_, fun _ => hlive⟩
          rw [hn2] at hle0
          omega

theorem CopyData_host_live (env : Env T D) {m : MemoryType} {src : Nat} {b : Buffer2D}
    {w w2 : World T D} (hm : b.MemoryType = MemoryType.Host)
    (hlive : ∃ d, block w.heap b.Data = some d)
    (h : CopyData env m src b w = some w2) : ∃ d1, block w2.heap b.Data = some d1 := by
  unfold CopyData at h
  rw [hm] at h
  cases m with
  | Host =>
    simp only at h
    split at h
    · exact absurd h (by simp)
    · rename_i h2 hcpy
      simp only [Option.some.injEq] at h
      rw [← h]
      unfold memcpy at hcpy
      split at hcpy
      · exact absurd hcpy (by simp)
      · split at hcpy
        · exact absurd hcpy (by simp)
        · obtain ⟨_, d1, _, hd1, _⟩ := hostWrite_spec hcpy
          exact ⟨d1, hd1⟩
  | Device =>
    simp only at h
    split at h
    · split at h
      · exact absurd h (by simp)
      · split at h
        · exact absurd h (by simp)
        · rename_i h2 hwr
          simp only [Option.some.injEq] at h
          rw [← h]
          obtain ⟨_, d1, _, hd1, _⟩ := hostWrite_spec hwr
          exact ⟨d1, hd1⟩
    · simp only [Option.some.injEq] at h
      rw [← h]
      exact hlive

theorem Set_stored (env : Env T D) {m : MemoryType} {r : Vec2i} {src : Nat}
    {b b1 : Buffer2D} {w w1 : World T D} (hs : Stored b w)
    (hc : b.MemoryType = MemoryType.Device → env.cudaArch = false)
    (h : Set env m r src b w = some (b1, w1)) : Stored b1 w1 := by
  unfold Set at h
  split at h
  · exact absurd h (by simp)
  · rename_i b0 w0 h0
    have hs0 := Resize_stored env hs hc h0
    split at h
    · simp only [Option.some.injEq, Prod.mk.injEq] at h
      rw [← h.1, ← h.2]
      exact hs0
    · rename_i hpos
      split at h
      · exact absurd h (by simp)
      · rename_i w2 hcopy
        simp only [Option.some.injEq, Prod.mk.injEq] at h
        rw [← h.1, ← h.2]
        rcases hs0 with ⟨hm0, hnull0, hlive0⟩ | ⟨hm0, hd0⟩
        · left
          exact ⟨hm0, hnull0,
            fun hp => CopyData_host_live env hm0 (hlive0 hp) hcopy⟩
        · right
          exact ⟨hm0, hd0⟩

theorem step_memoryType {env : Env T D} {op : Op} {s s1 : Buffer2D × World T D}
    (h : step env op s = some s1) : s1.1.MemoryType = s.1.MemoryType := by
  obtain ⟨b1, w1⟩ := s1
  have hres : ∀ {r : Vec2i} {b b2 : Buffer2D} {w w2 : World T D},
      Resize env r b w = some (b2, w2) → b2.MemoryType = b.MemoryType := by
    intro r b b2 w w2 h0
    rcases Resize_shape h0 with ⟨_, hb0, _⟩ | ⟨_, p, d, hb0⟩ <;> rw [hb0]
  cases op with
  | free =>
    obtain ⟨p, hp⟩ := Free_shape (show Free env s.1 s.2 = some (b1, w1) from h)
    show b1.MemoryType = s.1.MemoryType
    rw [hp]
  | destroy =>
    obtain ⟨b0, w0, h0, hb⟩ := Destroy_shape (show Destroy env s.1 s.2 = some (b1, w1) from h)
    show b1.MemoryType = s.1.MemoryType
    rw [hb]
    exact (hres h0 : b0.MemoryType = s.1.MemoryType)
  | reset =>
    obtain ⟨d, hd⟩ := Reset_shape (show Reset env s.1 s.2 = some (b1, w1) from h)
    show b1.MemoryType = s.1.MemoryType
    rw [hd]
  | resize r => exact hres (show Resize env r s.1 s.2 = some (b1, w1) from h)
  | set m r p =>
    obtain ⟨b0, w0, d, h0, hb⟩ := Set_shape (show Set env m r p s.1 s.2 = some (b1, w1) from h)
    show b1.MemoryType = s.1.MemoryType
    rw [hb]
    exact (hres h0 : b0.MemoryType = s.1.MemoryType)
  | assignFrom o =>
    simp only [step] at h
    split at h
    · exact absurd h (by simp)
    · rename_i t o1 w2 ha
      simp only [Option.some.injEq, Prod.mk.injEq] at h
      show b1.MemoryType = s.1.MemoryType
      rw [← h.1]
      rcases assign_shape ha with ⟨_, hb⟩ | ⟨_, b0, h0, hb⟩
      · rw [hb]
      · obtain ⟨b00, w00, d, h00, hb0⟩ := Set_shape h0
        rw [hb, hb0]
        exact (hres h00 : b00.MemoryType = s.1.MemoryType)

theorem step_stored (env : Env T D) {op : Op} {s s1 : Buffer2D × World T D}
    (hs : Stored s.1 s.2) (hc : s.1.MemoryType = MemoryType.Device → env.cudaArch = false)
    (h : step env op s = some s1) : Stored s1.1 s1.2 := by
  obtain ⟨b1, w1⟩ := s1
  cases op with
  | free =>
    obtain ⟨w2, hfree⟩ := Free_stored env hs hc
    have h1 : Free env s.1 s.2 = some (b1, w1) := h
    rw [hfree] at h1
    simp only [Option.some.injEq, Prod.mk.injEq] at h1
    show Stored b1 w1
    rw [← h1.1]
    rcases memoryType_cases s.1.MemoryType with hm | hm
    · exact Or.inl ⟨hm, fun _ => rfl, fun hp => absurd hp (by simp)⟩
    · exact Or.inr ⟨hm, rfl⟩
  | destroy =>
    have h1 : Destroy env s.1 s.2 = some (b1, w1) := h
    unfold Destroy at h1
    split at h1
    · exact absurd h1 (by simp)
    · rename_i b0 w0 h0
      simp only [Option.some.injEq, Prod.mk.injEq] at h1
      show Stored b1 w1
      rw [← h1.1, ← h1.2]
      exact (Resize_stored env hs hc h0 : Stored b0 w0)
  | reset => exact Reset_stored env hs h
  | resize r => exact Resize_stored env hs hc h
  | set m r p => exact Set_stored env hs hc h
  | assignFrom o =>
    simp only [step] at h
    split at h
    · exact absurd h (by simp)
    · rename_i t o1 w2 ha
      simp only [Option.some.injEq, Prod.mk.injEq] at h
      show Stored b1 w1
      rw [← h.1, ← h.2]
      rcases assign_shape ha with ⟨hd, hb⟩ | ⟨_, b0, h0, hb⟩
      · have hw : w2 = s.2 := by
          simp [assign, hd] at ha
          exact ha.2.2.symm
        rw [hb, hw]
        exact hs
      · rw [hb]
        exact (Set_stored env hs hc h0 : Stored b0 w2)

theorem run_stored (env : Env T D) (ops : List Op) :
    ∀ (s s1 : Buffer2D × World T D), run env ops s = some s1 → Stored s.1 s.2 →
      (s.1.MemoryType = MemoryType.Device → env.cudaArch = false) →
      Stored s1.1 s1.2 ∧ s1.1.MemoryType = s.1.MemoryType := by
  induction ops with
  | nil =>
    intro s s1 h hs _
    simp only [run, Option.some.injEq] at h
    rw [← h]; exact ⟨hs, rfl⟩
  | cons op ops ih =>
    intro s s1 h hs hc
    simp only [run] at h
    split at h
    · exact absurd h (by simp)
    · rename_i s2 h2
      have hm2 := step_memoryType h2
      obtain ⟨hs1, hm1⟩ := ih s2 s1 h (step_stored env hs hc h2) (by rw [hm2]; exact hc)
      exact ⟨hs1, hm1.trans hm2⟩

/-- Storage invariant, host part: every state reached from a freshly
constructed host buffer (no storage, element count 0, resolution (0,0)) by any
sequence of operations is a host buffer whose data handle is null when the
count is not positive and a live block otherwise; in particular its data
handle is not null exactly when its element count is positive. -/
theorem storage_invariant_host (env : Env T D) (b0 : Buffer2D) (w0 : World T D)
    (hm : b0.MemoryType = MemoryType.Host) (hdata : b0.Data = NULL)
    (hcount : b0.NoElements = 0)
    (ops : List Op) (b : Buffer2D) (w : World T D)
    (hrun : run env ops (b0, w0) = some (b, w)) :
    Stored b w ∧ StorageInv b := by
  obtain ⟨hs, hmem⟩ := run_stored env ops (b0, w0) (b, w) hrun
    (Or.inl ⟨hm, fun _ => hdata, fun h => absurd h (by simp [hcount])⟩)
    (fun hdev => by rw [hm] at hdev; exact absurd hdev (by simp))
  have hs1 : Stored b w := hs
  have hmem1 : b.MemoryType = b0.MemoryType := hmem
  refine ⟨hs1, ?_⟩
  rcases hs1 with ⟨_, hnull, hlive⟩ | ⟨hdev, _⟩
  · constructor
    · intro hd
      by_contra hle
      exact hd (hnull (by omega))
    · intro hpos hd
      obtain ⟨blk, hblk⟩ := hlive hpos
      rw [hd, block_null] at hblk
      exact absurd hblk (by simp)
  · have : b.MemoryType = MemoryType.Host := hmem1.trans hm
    rw [this] at hdev
    exact absurd hdev (by simp)
/-! ## RandomSeedBuffer2D -/

theorem storeElem_spec {h : Heap T} {p i : Nat} {blk : List T} (v : T)
    (hb : block h p = some blk) (hi : i < blk.length) :
    storeElem h p i v = some (h.set (p - 1) (some (blk.set i v))) := by
  simp [storeElem, hb, hi]

theorem seedLoop_spec (env : Env Nat D) (p : Nat) (k : Nat) :
    ∀ (i : Nat) (w : World Nat D) (blk : List Nat), block w.heap p = some blk →
      i + k ≤ blk.length →
      ∃ w1 blk1, seedLoop env p k i w = some w1 ∧
        w1.randCalls = w.randCalls + k ∧ w1.dev = w.dev ∧
        w1.heap.length = w.heap.length ∧
        (∀ q, q ≠ p → block w1.heap q = block w.heap q) ∧
        block w1.heap p = some blk1 ∧ blk1.length = blk.length ∧
        (∀ j, j < i → blk1.get? j = blk.get? j) ∧
        (∀ j, i ≤ j → j < i + k →
          blk1.get? j = some (toUnsigned (env.rand (w.randCalls + (j - i))))) := by
  induction k with
  | zero =>
    intro i w blk hb _
    exact ⟨w, blk, rfl, rfl, rfl, rfl, fun _ _ => rfl, hb, rfl, fun _ _ => rfl,
      fun j h1 h2 => absurd h2 (by omega)⟩
  | succ k ih =>
    intro i w blk hb hle
    have hp := block_some_pos hb
    have hi : i < blk.length := by omega
    have hstore := storeElem_spec (toUnsigned (env.rand w.randCalls)) hb hi
    have hb1 : block (w.heap.set (p - 1)
        (some (blk.set i (toUnsigned (env.rand w.randCalls))))) p
        = some (blk.set i (toUnsigned (env.rand w.randCalls))) :=
      block_set_same hp.1 hp.2 _
    obtain ⟨w1, blk1, hloop, hcalls, hdev, hlen, hframe, hblk1, hlen1, hlow, hhigh⟩ :=
      ih (i + 1)
        { w with heap := w.heap.set (p - 1)
                  (some (blk.set i (toUnsigned (env.rand w.randCalls)))),
                 randCalls := w.randCalls + 1 }
        (blk.set i (toUnsigned (env.rand w.randCalls))) hb1 (by simp; omega)
    refine ⟨w1, blk1, ?_, ?_, hdev, ?_, ?_, hblk1, ?_, ?_, ?_⟩
    · simp only [seedLoop, hstore]
      exact hloop
    · rw [hcalls]; simp only []; omega
    · rw [hlen]; simp
    · intro q hq
      rw [hframe q hq]
      exact block_set_other _ hq hp.1 _
    · rw [hlen1]; simp
    · intro j hj
      rw [hlow j (by omega)]
      have : i ≠ j := by omega
      simp [List.getElem?_set_ne this]
    · intro j hj1 hj2
      by_cases hji : j = i
      · subst hji
        rw [hlow j (by omega)]
        simp [List.getElem?_set_self hi]
      · rw [hhigh j (by omega) (by omega)]
        simp only []
        have : w.randCalls + 1 + (j - (i + 1)) = w.randCalls + (j - i) := by omega
        rw [this]

theorem HostValid_data_le {env : Env T D} {b : Buffer2D} {w : World T D}
    (hv : HostValid env b w) :
    b.Data ≤ w.heap.length := by
  obtain ⟨_, _, hnull, hlive⟩ := hv
  by_cases hpos : 0 < b.NoElements
  · obtain ⟨_, blk, hblk, _⟩ := hlive hpos
    exact (block_some_pos hblk).2
  · rw [hnull (by omega)]
    exact Nat.zero_le _

/-- The first half of `RandomSeedBuffer2D::Resize`: the staging array is
allocated at the fresh address and filled by the loop; the buffer is still
valid afterwards. -/
theorem seedStage_spec (env : Env Nat D) {b : Buffer2D} {w : World Nat D}
    (hv : HostValid env b w) (n : Nat) :
    ∃ w1 blk1,
      seedLoop env (w.heap.length + 1) n 0
        { w with heap := w.heap ++ [some ((List.range n).map env.junk)] } = some w1 ∧
      w1.randCalls = w.randCalls + n ∧
      block w1.heap (w.heap.length + 1) = some blk1 ∧ blk1.length = n ∧
      (∀ j, j < n → blk1.get? j = some (toUnsigned (env.rand (w.randCalls + j)))) ∧
      HostValid env b w1 ∧ w.heap.length + 1 ≠ b.Data ∧
      (∀ d, block w.heap b.Data = some d → block w1.heap b.Data = some d) := by
  have hjunk : block (w.heap ++ [some ((List.range n).map env.junk)])
      (w.heap.length + 1) = some ((List.range n).map env.junk) :=
    block_append_new _ _
  obtain ⟨w1, blk1, hloop, hcalls1, _, _, hframe1, hblk1, hlen1, _, hvals⟩ :=
    seedLoop_spec env (w.heap.length + 1) n 0
      { w with heap := w.heap ++ [some ((List.range n).map env.junk)] }
      ((List.range n).map env.junk) hjunk (by simp)
  have hdle := HostValid_data_le hv
  have hpne : w.heap.length + 1 ≠ b.Data := by omega
  have hkeep : ∀ d, block w.heap b.Data = some d → block w1.heap b.Data = some d := by
    intro d hd
    rw [hframe1 b.Data (fun h => hpne h.symm)]
    simp only []
    rw [block_append_of_le _ _ hdle, hd]
  refine ⟨w1, blk1, hloop, hcalls1, hblk1, by simpa using hlen1, ?_, ?_, hpne, hkeep⟩
  · intro j hj
    have := hvals j (by omega) (by omega)
    simpa using this
  · exact HostValid_of_heap hv (fun d hd => ⟨d, hkeep d hd, rfl⟩)
/-! ## Empty shapes -/

/-- `Set` to a shape without elements on a valid host buffer: whatever the
source space and the source pointer, the result is that of `Resize`, which is
either the early return or the release of the storage. -/
theorem Set_host_empty (env : Env T D) {b : Buffer2D} {w : World T D} (hv : HostValid env b w)
    {r : Vec2i} (hn : r.x * r.y ≤ 0) (m : MemoryType) (src : Nat) :
    Set env m r src b w = Resize env r b w ∧
    ((b.Resolution = r ∧ b.Data = NULL ∧ Resize env r b w = some (b, w)) ∨
     (b.Resolution ≠ r ∧ Resize env r b w = some
        ({ b with Data := NULL, Resolution := r, NoElements := r.x * r.y, Dirty := true },
         { w with heap := released w.heap b.Data }))) := by
  by_cases hr : b.Resolution = r
  · have hcount : b.NoElements ≤ 0 := by rw [hv.2.1, hr]; exact hn
    have hres : Resize env r b w = some (b, w) := by simp [Resize, hr]
    exact ⟨by simp [Set, hres, hcount], Or.inl ⟨hr, hv.2.2.1 hcount, hres⟩⟩
  · have hres := Resize_host_empty env hv hr hn
    exact ⟨by simp [Set, hres, hn], Or.inr ⟨hr, hres⟩⟩
/-! ## Assignment from a dirty host buffer -/

theorem exists_of_isSome3 {α β γ : Type} {o : Option (α × β × γ)} (h : o.isSome = true) :
    ∃ a b c, o = some (a, b, c) := by
  cases o with
  | none => exact absurd h (by simp)
  | some x => exact ⟨x.1, x.2.1, x.2.2, rfl⟩

theorem assign_dirty_host (env : Env T D) {A B : Buffer2D} {w : World T D}
    (hA : HostValid env A w) (hB : HostValid env B w) (hpos : 0 < A.NoElements)
    (hdirty : A.Dirty = true) (hne : A.Data ≠ B.Data) :
    ∃ b1 w1 blkA rest,
      assign env B A w = some
        ({ b1 with Name := sprintfCopyOf env A.Name }, { A with Dirty := false }, w1) ∧
      b1 = { B with Data := b1.Data, Resolution := A.Resolution, NoElements := A.NoElements,
                    Dirty := true } ∧
      block w.heap A.Data = some blkA ∧ A.NoElements.toNat ≤ blkA.length ∧
      block w1.heap b1.Data = some (blkA.take A.NoElements.toNat ++ rest) ∧
      block w1.heap A.Data = some blkA := by
  obtain ⟨hmA, hcA, _, hliveA⟩ := hA
  obtain ⟨hfitA, blkA, hblkA, hlenA⟩ := hliveA hpos
  have hn : 0 < A.Resolution.x * A.Resolution.y := by rw [← hcA]; exact hpos
  have hfit : A.Resolution.x * A.Resolution.y * (env.sizeofT : Int) ≤ INT_MAX := by
    rw [← hcA]; exact hfitA
  have hlen : (A.Resolution.x * A.Resolution.y).toNat ≤ blkA.length := by
    rw [← hcA]; exact hlenA
  obtain ⟨b1, w1, hset, hb1, _, _, ⟨rest, hblk⟩, _, hframe⟩ :=
    Set_host_spec env hB hn hfit hblkA hlen hne
  refine ⟨b1, w1, blkA, rest, ?_, ?_, hblkA, hlenA, ?_, hframe A.Data blkA hne hblkA⟩
  · simp [assign, hdirty, hmA ▸ hset]
  · rw [hcA]; exact hb1
  · rw [hcA]; exact hblk
/-- The name of `bufLongName` has 250 characters. -/
theorem bufLongName_length : bufLongName.Name.length = 250 := by
  show (List.replicate 250 'a').length = 250
  rw [List.length_replicate]

/-! ## Byte counts beyond the range of `int` -/

/-- `Resize` on a valid host buffer to a different shape whose byte count,
narrowed to `int` and handed to `malloc` as a `size_t`, exceeds `PTRDIFF_MAX`:
`malloc` returns `NULL` and `memset` is called on the null pointer, which has no
defined result. -/
theorem Resize_host_crash (env : Env T D) {b : Buffer2D} {w : World T D}
    (hv : HostValid env b w) {r : Vec2i} (hr : b.Resolution ≠ r) (hn : 0 < r.x * r.y)
    (hbig : PTRDIFF_MAX <
      toSizeT (toInt (toSizeT (r.x * r.y) * env.sizeofT % 18446744073709551616))) :
    Resize env r b w = none := by
  have hn2 : ¬ r.x * r.y ≤ 0 := by omega
  unfold Resize
  simp [hr, Free_host env hv, hn2, AllocData, hv.1, Reset, GetNoElements, GetNoBytes, malloc,
    memset, hbig, block_null]

theorem Set_host_crash (env : Env T D) {b : Buffer2D} {w : World T D}
    (hv : HostValid env b w) {r : Vec2i} (hr : b.Resolution ≠ r) (hn : 0 < r.x * r.y)
    (hbig : PTRDIFF_MAX <
      toSizeT (toInt (toSizeT (r.x * r.y) * env.sizeofT % 18446744073709551616)))
    (m : MemoryType) (src : Nat) :
    Set env m r src b w = none := by
  simp [Set, Resize_host_crash env hv hr hn hbig]

/-- `RandomSeedBuffer2D::Resize` with such a shape: the staging array is
allocated and filled, and the call of `Set` then has no defined result. -/
theorem RandomSeed_crash (env : Env Nat D) {b : Buffer2D} {w : World Nat D}
    (hv : HostValid env b w) {r : Vec2i} (hr : b.Resolution ≠ r) (hn : 0 < r.x * r.y)
    (hbig : PTRDIFF_MAX <
      toSizeT (toInt (toSizeT (r.x * r.y) * env.sizeofT % 18446744073709551616))) :
    RandomSeedBuffer2D.Resize env r b w = none := by
  have hnlt : ¬ r.x * r.y < 0 := by omega
  obtain ⟨w1, blk1, hloop, _, _, _, _, hv1, _, _⟩ := seedStage_spec env hv (r.x * r.y).toNat
  have hset := Set_host_crash env hv1 hr hn hbig MemoryType.Host (w.heap.length + 1)
  simp [RandomSeedBuffer2D.Resize, newArray, hnlt, allocBlock, hloop, hset]

/-! ## The claims -/

/-- Counterexample to C1 as stated: `Buffer2D<int>`, `w = 32768`, `h = 16384`
and a source array of exactly `w*h = 2^29` elements.  `GetNoBytes` narrows
`2^31` to `-2147483648`, `malloc` is asked for that value as a `size_t` and
returns `NULL`, and `Set` ends in `memset` on the null pointer: it does not
complete, so nothing can be read back. -/
theorem C1_set_overflow :
    HostValid envInt (construct MemoryType.Host "B" false) worldBig ∧
    (0 : Int) < 32768 ∧ (0 : Int) < 16384 ∧
    block worldBig.heap 1 = some (List.replicate 536870912 (0 : Int)) ∧
    (List.replicate 536870912 (0 : Int)).length = ((32768 : Int) * 16384).toNat ∧
    GetNoBytes envInt { construct MemoryType.Host "B" false with
      NoElements := (32768 : Int) * 16384 } = -2147483648 ∧
    Set envInt MemoryType.Host ⟨32768, 16384⟩ 1 (construct MemoryType.Host "B" false) worldBig
      = none := by
  have hv : HostValid envInt (construct MemoryType.Host "B" false) worldBig :=
    ⟨rfl, by decide, fun _ => rfl, fun h => absurd h (by decide)⟩
  refine ⟨hv, by decide, by decide, rfl, by rw [List.length_replicate]; decide, by decide, ?_⟩
  exact Set_host_crash envInt hv (by decide) (by decide) (by decide) MemoryType.Host 1

/-- C1 as amended (Set round-trip): for a host buffer in any valid prior
state, any `w > 0`, `h > 0` whose byte count `w*h*sizeof(T)` fits in an `int`,
and any host array `src` of exactly `w*h` elements that is not the buffer's own
storage, `Set(Host, (w,h), src)` completes and afterwards `operator()(x, y)`
reads `src[y*w + x]` for all `0 <= x < w`, `0 <= y < h`. -/
theorem C1_set_round_trip (env : Env T D) (b : Buffer2D) (w : World T D)
    (hv : HostValid env b w) (wd ht : Int) (hw : 0 < wd) (hh : 0 < ht)
    (hfit : wd * ht * (env.sizeofT : Int) ≤ INT_MAX) (src : Nat)
    (vals : List T) (hsrc : block w.heap src = some vals)
    (hlen : vals.length = (wd * ht).toNat) (hne : src ≠ b.Data) :
    ∃ b1 w1, Set env MemoryType.Host ⟨wd, ht⟩ src b w = some (b1, w1) ∧
      ∀ x y : Int, 0 ≤ x → x < wd → 0 ≤ y → y < ht →
        (y * wd + x).toNat < vals.length ∧
        deref w1.heap (at2 b1 x y) = vals.get? (y * wd + x).toNat := by
  have hn : 0 < (⟨wd, ht⟩ : Vec2i).x * (⟨wd, ht⟩ : Vec2i).y := mul_pos hw hh
  obtain ⟨b1, w1, hset, hb1, _, _, ⟨rest, hblk⟩, _, _⟩ :=
    Set_host_spec env hv hn hfit hsrc (le_of_eq hlen.symm) hne
  refine ⟨b1, w1, hset, ?_⟩
  intro x y hx0 hx hy0 hy
  obtain ⟨hi0, hi⟩ := index_in_range hx0 hx hy0 hy
  have hres : b1.Resolution.x = wd := by rw [hb1]
  have hlt : (y * wd + x).toNat < (wd * ht).toNat := by omega
  refine ⟨by omega, ?_⟩
  simp only [at2, hres]
  rw [deref_block hblk _ hi0]
  exact get?_take_append hlt (le_of_eq hlen.symm)

/-- Witness of C1 as amended: `Set(Host, (4,3), [0..11])` on an empty host
buffer of `int`, after which element (2,1) reads 6. -/
theorem C1_set_round_trip_witness :
    ∃ b1 w1, Set envInt MemoryType.Host ⟨4, 3⟩ 1 (construct MemoryType.Host "B" false) worldSrc
        = some (b1, w1) ∧ deref w1.heap (at2 b1 2 1) = some 6 := by
  obtain ⟨b1, w1, hset, hall⟩ := C1_set_round_trip envInt (construct MemoryType.Host "B" false)
    worldSrc (by decide) 4 3 (by decide) (by decide) (by decide) 1
    [0, 1, 2, 3, 4, 5, 6, 7, 8, 9, 10, 11] rfl rfl (by decide)
  exact ⟨b1, w1, hset, (hall 2 1 (by decide) (by decide) (by decide) (by decide)).2⟩

/-- Counterexample to C2 as stated, in two parts.  The host buffer `bufFull`
holds `[0..11]` at resolution (4,3); `Resize((4,3))` returns it unchanged, so
element (1,0) still reads 1 and not the zero value.  And `Resize((32768,16384))`
on a `Buffer2D<int>` does not complete: the byte count `2^31` is narrowed to
`-2147483648`, which is not `w*h*sizeof(T)`, `malloc` returns `NULL` and
`memset` is called on the null pointer. -/
theorem C2_resize_same_resolution_keeps_content :
    HostValid envInt bufFull worldSrc ∧
    Resize envInt ⟨4, 3⟩ bufFull worldSrc = some (bufFull, worldSrc) ∧
    deref worldSrc.heap (at2 bufFull 1 0) = some 1 ∧
    deref worldSrc.heap (at2 bufFull 1 0) ≠ some envInt.zero ∧
    Resize envInt ⟨32768, 16384⟩ bufFull worldSrc = none ∧
    GetNoBytes envInt { bufFull with NoElements := (32768 : Int) * 16384 }
      ≠ (32768 : Int) * 16384 * (envInt.sizeofT : Int) := by
  have hv : HostValid envInt bufFull worldSrc := by decide
  refine ⟨hv, rfl, by decide, by decide, ?_, by decide⟩
  exact Resize_host_crash envInt hv (by decide) (by decide) (by decide)

/-- C2 as amended (Resize correctness).  In either memory space, for a buffer
that satisfies the size invariant, whenever `Resize((w,h))` completes
`GetNoElements() == w*h`, and `GetNoBytes() == w*h*sizeof(T)` when that product
is not negative and fits in an `int`.  For a host buffer in any valid state and
a shape that is empty or whose byte count fits in an `int`, `Resize((w,h))` does
complete, and when `(w,h)` differs from the current resolution every element,
by linear index and by `(x, y)`, reads as the zero value of `T`. -/
theorem C2_resize_correct (env : Env T D) (b : Buffer2D) (w : World T D) (r : Vec2i) :
    (SizeInv b → ∀ b1 w1, Resize env r b w = some (b1, w1) →
      GetNoElements b1 = r.x * r.y ∧
      (0 ≤ r.x * r.y → r.x * r.y * (env.sizeofT : Int) ≤ INT_MAX →
        GetNoBytes env b1 = r.x * r.y * (env.sizeofT : Int))) ∧
    (HostValid env b w → (0 < r.x * r.y → r.x * r.y * (env.sizeofT : Int) ≤ INT_MAX) →
      ∃ b1 w1, Resize env r b w = some (b1, w1) ∧
      (b.Resolution ≠ r →
        (∀ i : Int, 0 ≤ i → i < r.x * r.y → deref w1.heap (atIndex b1 i) = some env.zero) ∧
        (∀ x y : Int, 0 ≤ x → x < r.x → 0 ≤ y → y < r.y →
          deref w1.heap (at2 b1 x y) = some env.zero))) := by
  constructor
  · intro hs b1 w1 h
    have hcount : b1.NoElements = r.x * r.y := by
      rcases Resize_shape h with ⟨hr, hb, _⟩ | ⟨_, p, d, hb⟩
      · rw [hb, ← hr]; exact hs
      · rw [hb]
    refine ⟨hcount, fun h0 hfit => ?_⟩
    rw [GetNoBytes_fit env b1 (by rw [hcount]; exact h0) (by rw [hcount]; exact hfit), hcount]
  · intro hv hfit
    by_cases hr : b.Resolution = r
    · exact ⟨b, w, by simp [Resize, hr], fun h => absurd hr h⟩
    · by_cases hn : r.x * r.y ≤ 0
      · refine ⟨_, _, Resize_host_empty env hv hr hn, fun _ => ⟨?_, ?_⟩⟩
        · intro i hi0 hi
          omega
        · intro x y hx0 hx hy0 hy
          have := index_in_range hx0 hx hy0 hy
          omega
      · have hpos : 0 < r.x * r.y := by omega
        have hblk : block (released w.heap b.Data ++
            [some (List.replicate (r.x * r.y).toNat env.zero)]) (w.heap.length + 1)
            = some (List.replicate (r.x * r.y).toNat env.zero) := by
          have := block_append_new (released w.heap b.Data)
            (some (List.replicate (r.x * r.y).toNat env.zero))
          rwa [released_length] at this
        have hread : ∀ i : Int, 0 ≤ i → i < r.x * r.y →
            deref (released w.heap b.Data ++ [some (List.replicate (r.x * r.y).toNat env.zero)])
              ⟨w.heap.length + 1, i⟩ = some env.zero := by
          intro i hi0 hi
          rw [deref_block hblk _ hi0]
          have : i.toNat < (r.x * r.y).toNat := by omega
          simp [List.getElem?_replicate, this]
        refine ⟨_, _, Resize_host_alloc env hv hr hpos (hfit hpos), fun _ => ⟨?_, ?_⟩⟩
        · intro i hi0 hi
          exact hread i hi0 hi
        · intro x y hx0 hx hy0 hy
          obtain ⟨h0, h1⟩ := index_in_range hx0 hx hy0 hy
          exact hread _ h0 h1

/-- Witness of C2 as amended: `Resize((4,3))` on an empty host buffer gives 12
elements, 48 bytes, and element (2,1) reads 0. -/
theorem C2_resize_correct_witness :
    ∃ b1 w1, Resize envInt ⟨4, 3⟩ (construct MemoryType.Host "B" false) worldSrc = some (b1, w1) ∧
      GetNoElements b1 = 12 ∧ GetNoBytes envInt b1 = 48 ∧
      deref w1.heap (at2 b1 2 1) = some 0 := by
  obtain ⟨hsize, hhost⟩ := C2_resize_correct envInt (construct MemoryType.Host "B" false)
    worldSrc ⟨4, 3⟩
  obtain ⟨b1, w1, hres, hz⟩ := hhost (by decide) (fun _ => by decide)
  obtain ⟨hn, hb⟩ := hsize (by decide) b1 w1 hres
  exact ⟨b1, w1, hres, hn, hb (by decide) (by decide),
    (hz (by decide)).2 2 1 (by decide) (by decide) (by decide) (by decide)⟩

/-- C3 (Resize idempotence): for every buffer state and every world,
`Resize` to the current resolution returns the buffer and the world exactly as
they were: data handle and contents, resolution, element count, memory space
and dirty flag are untouched, and nothing is freed, allocated or zero-filled. -/
theorem C3_resize_idempotent (env : Env T D) (b : Buffer2D) (w : World T D) :
    Resize env b.Resolution b w = some (b, w) := by
  unfold Resize
  rw [if_pos rfl]
/-- Counterexample to C5 as stated: the clean source `bufLongName` has a name
of 250 characters, which fits in the array of `MAX_CHAR_SIZE = 256` characters;
"Copy of " followed by it does not, so `sprintf_s` leaves the destination with
the empty name, which is not "Copy of " followed by the name of the source. -/
theorem C5_name_overflow :
    bufLongName.Dirty = false ∧ bufLongName.Name.length < envInt.MAX_CHAR_SIZE ∧
    assign envInt (construct MemoryType.Host "C" true) bufLongName worldSrc
      = some ({ construct MemoryType.Host "C" true with Name := "" }, bufLongName, worldSrc) ∧
    ("" : String) ≠ "Copy of " ++ bufLongName.Name := by
  have h : ¬ ("Copy of " ++ bufLongName.Name).length < envInt.MAX_CHAR_SIZE := by
    rw [String.length_append, bufLongName_length]; decide
  have hs : sprintfCopyOf envInt bufLongName.Name = "" := if_neg h
  have hd : bufLongName.Dirty = false := rfl
  refine ⟨rfl, by rw [bufLongName_length]; decide, ?_, ?_⟩
  · simp only [assign, hd, hs]
    rfl
  · intro he
    have hl := congrArg String.length he
    rw [String.length_append, bufLongName_length] at hl
    exact absurd hl (by decide)

/-- C5 as amended (clean-source assignment): for every source buffer `A` with
`Dirty == false` and every destination `C`, in any memory spaces, `C = A`
returns `C` with only its name replaced by the result of `sprintf_s`, and leaves
`A` and the world (all storage) exactly as they were; the new name is
"Copy of " followed by the name of `A` whenever that text, with its terminator,
fits in `MAX_CHAR_SIZE` characters.  In particular, whenever a first copy
`B = A0` from any buffer `A0` has completed, a second copy `C = A0` made right
after it is such a no-op. -/
theorem C5_clean_source_assign (env : Env T D) (A C : Buffer2D) (w : World T D)
    (hclean : A.Dirty = false) :
    assign env C A w = some ({ C with Name := sprintfCopyOf env A.Name }, A, w) ∧
    (("Copy of " ++ A.Name).length < env.MAX_CHAR_SIZE →
      sprintfCopyOf env A.Name = "Copy of " ++ A.Name) ∧
    ∀ (A0 B B1 A1 : Buffer2D) (w0 w1 : World T D),
      assign env B A0 w0 = some (B1, A1, w1) →
      assign env C A1 w1 = some ({ C with Name := sprintfCopyOf env A0.Name }, A1, w1) := by
  refine ⟨by simp [assign, hclean], fun hfit => if_pos hfit, ?_⟩
  intro A0 B B1 A1 w0 w1 h
  unfold assign at h
  split at h
  · split at h
    · exact absurd h (by simp)
    · simp only [Option.some.injEq, Prod.mk.injEq] at h
      obtain ⟨_, hA1, _⟩ := h
      subst hA1
      simp [assign]
  · rename_i hd
    simp only [Option.some.injEq, Prod.mk.injEq] at h
    obtain ⟨_, hA1, _⟩ := h
    subst hA1
    simp [assign, hd]

/-- Witness of C5 as amended: a clean copy of `bufFull` assigned to a fresh
buffer, which gets the name "Copy of A". -/
theorem C5_clean_source_assign_witness :
    assign envInt (construct MemoryType.Host "C" true) { bufFull with Dirty := false } worldSrc
      = some ({ construct MemoryType.Host "C" true with Name := "Copy of A" },
              { bufFull with Dirty := false }, worldSrc) :=
  (C5_clean_source_assign envInt { bufFull with Dirty := false }
    (construct MemoryType.Host "C" true) worldSrc rfl).1

/-- C6 (Free resets to empty).  For a host buffer whose data handle is null or
a live block, `Free` completes with a null data handle, resolution (0,0),
element count 0 and `Dirty == true`, whether or not storage was allocated, and
the storage is released.  In host compilation the same holds in every state
reached from a freshly constructed buffer in either memory space by any
sequence of `Free`, `Destroy`, `Reset`, `Resize`, `Set` and assignment (a device
buffer never gets a handle there).  When the device branches are compiled in, a
device buffer ends with a null handle whenever `Cuda::Free` nulls the handle it
is given. -/
theorem C6_free_resets (env : Env T D) (b : Buffer2D) (w : World T D) :
    (b.MemoryType = MemoryType.Host →
      (b.Data ≠ NULL → ∃ blk, block w.heap b.Data = some blk) →
      Free env b w = some
        ({ b with Data := NULL, Resolution := Vec2i.zero, NoElements := 0, Dirty := true },
         { w with heap := released w.heap b.Data })) ∧
    (env.cudaArch = false →
      ∀ (b0 : Buffer2D) (w0 : World T D) (ops : List Op), b0.Data = NULL → b0.NoElements = 0 →
        run env ops (b0, w0) = some (b, w) →
        ∃ w1, Free env b w = some
          ({ b with Data := NULL, Resolution := Vec2i.zero, NoElements := 0, Dirty := true },
           w1)) ∧
    (env.cudaArch = true → CudaSane env.cuda → b.MemoryType = MemoryType.Device →
      ∀ b1 w1, Free env b w = some (b1, w1) →
        b1 = { b with Data := NULL, Resolution := Vec2i.zero, NoElements := 0,
                      Dirty := true }) := by
  refine ⟨fun hm hlive => Free_host_live env hm hlive, ?_, ?_⟩
  · intro hc b0 w0 ops hdata hcount hrun
    have hs0 : Stored b0 w0 := by
      rcases memoryType_cases b0.MemoryType with hm | hm
      · exact Or.inl ⟨hm, fun _ => hdata, fun h => absurd h (by simp [hcount])⟩
      · exact Or.inr ⟨hm, hdata⟩
    obtain ⟨hs, _⟩ := run_stored env ops (b0, w0) (b, w) hrun hs0 (fun _ => hc)
    exact Free_stored env hs (fun _ => hc)
  · intro hc hs hm b1 w1 h
    exact Free_device_sane hc hs hm h

/-- Witness of C6: `Free` on the host buffer `bufFull`, which owns storage, and
on the device buffer reached by `Resize((4,3))` in host compilation. -/
theorem C6_free_resets_witness :
    Free envInt bufFull worldSrc = some
      ({ bufFull with Data := NULL, Resolution := Vec2i.zero, NoElements := 0, Dirty := true },
       { worldSrc with heap := [none] }) ∧
    ∃ w1, Free envInt { construct MemoryType.Device "D" false with
              Resolution := ⟨4, 3⟩, NoElements := 12, Dirty := true } worldSrc = some
      ({ construct MemoryType.Device "D" false with
           Data := NULL, Resolution := Vec2i.zero, NoElements := 0, Dirty := true }, w1) :=
  ⟨(C6_free_resets envInt bufFull worldSrc).1 rfl (fun _ => ⟨_, rfl⟩),
   (C6_free_resets envInt { construct MemoryType.Device "D" false with
      Resolution := ⟨4, 3⟩, NoElements := 12, Dirty := true } worldSrc).2.1 rfl
      (construct MemoryType.Device "D" false) worldSrc [Op.resize ⟨4, 3⟩] rfl rfl rfl⟩

/-- C7 (size invariant): start from a freshly constructed buffer, that is
from any buffer state with resolution (0,0) and element count 0, in either
memory space.  In every state reached from it by any sequence of `Free`,
`Destroy`, `Reset`, `Resize`, `Set` and assignment, in any world and for either
setting of `__CUDA_ARCH__`, the element count equals
`Resolution[0] * Resolution[1]`. -/
theorem C7_size_invariant (env : Env T D) (b0 : Buffer2D) (w0 : World T D)
    (hres : b0.Resolution = Vec2i.zero) (hcount : b0.NoElements = 0)
    (ops : List Op) (b : Buffer2D) (w : World T D)
    (hrun : run env ops (b0, w0) = some (b, w)) :
    GetNoElements b = b.Resolution.x * b.Resolution.y :=
  run_sizeInv ops (b0, w0) (b, w) hrun (by simp [SizeInv, hres, hcount, Vec2i.zero])

/-- Witness of C7: a host buffer is resized to (4,3), filled from `[0..11]`,
resized to (3,4), reset, assigned from a dirty buffer, destroyed and resized to
(2,5); it ends with 10 elements at resolution (2,5). -/
theorem C7_size_invariant_witness :
    run envInt [Op.resize ⟨4, 3⟩, Op.set MemoryType.Host ⟨4, 3⟩ 1, Op.resize ⟨3, 4⟩,
        Op.reset, Op.assignFrom bufFull, Op.destroy, Op.resize ⟨2, 5⟩]
        (construct MemoryType.Host "B" false, worldSrc)
      = some ({ MemoryType := MemoryType.Host, Name := "Copy of A", Data := 5, NoElements := 10,
                Dirty := true, Resolution := ⟨2, 5⟩ },
              { heap := [some [0, 1, 2, 3, 4, 5, 6, 7, 8, 9, 10, 11], none, none, none,
                          some [0, 0, 0, 0, 0, 0, 0, 0, 0, 0]],
                dev := (), randCalls := 0 }) ∧
    GetNoElements ({ MemoryType := MemoryType.Host, Name := "Copy of A", Data := 5,
                     NoElements := 10, Dirty := true, Resolution := ⟨2, 5⟩ } : Buffer2D)
      = (2 : Int) * 5 :=
  ⟨rfl, C7_size_invariant envInt (construct MemoryType.Host "B" false) worldSrc rfl rfl
    [Op.resize ⟨4, 3⟩, Op.set MemoryType.Host ⟨4, 3⟩ 1, Op.resize ⟨3, 4⟩,
      Op.reset, Op.assignFrom bufFull, Op.destroy, Op.resize ⟨2, 5⟩] _ _ rfl⟩
/-- C8, evaluation at the failing input: a freshly constructed device buffer
is resized to (1,1) in host compilation.  The element count becomes 1 while the
data handle stays null, so the storage invariant does not hold in the state
reached. -/
theorem C8_device_resize_breaks_storage_invariant :
    run envInt [Op.resize ⟨1, 1⟩] (construct MemoryType.Device "D" false, worldSrc)
      = some ({ construct MemoryType.Device "D" false with
                  Resolution := ⟨1, 1⟩, NoElements := 1, Dirty := true }, worldSrc) ∧
    ¬ StorageInv { construct MemoryType.Device "D" false with
                     Resolution := ⟨1, 1⟩, NoElements := 1, Dirty := true } := by
  exact ⟨rfl, by decide⟩
/-- Counterexample to C9 as stated: `Resize((32768,16384))` on the valid
`Buffer2D<int>` `bufFull` of resolution (4,3).  The new shape differs and has
`2^29 > 0` elements, but the byte count `2^31` is narrowed to `-2147483648`,
`malloc` returns `NULL` and `memset` is called on the null pointer: `Resize`
does not complete. -/
theorem C9_resize_overflow :
    HostValid envInt bufFull worldSrc ∧ (⟨32768, 16384⟩ : Vec2i) ≠ bufFull.Resolution ∧
    (0 : Int) < (⟨32768, 16384⟩ : Vec2i).x * (⟨32768, 16384⟩ : Vec2i).y ∧
    Resize envInt ⟨32768, 16384⟩ bufFull worldSrc = none := by
  have hv : HostValid envInt bufFull worldSrc := by decide
  exact ⟨hv, by decide, by decide,
    Resize_host_crash envInt hv (by decide) (by decide) (by decide)⟩

/-- C9 as amended (Resize to a different shape discards content): for a valid
host buffer with any contents and any resolution `r1` different from its
current one with `r1.x * r1.y > 0` (also when the element count stays the same)
whose byte count fits in an `int`, `Resize(r1)` completes; afterwards the
resolution is `r1`, the element count is `r1.x * r1.y`, every element (by linear
index and by `(x, y)`) reads as zero, and `Dirty` is true. -/
theorem C9_resize_discards_content (env : Env T D) (b : Buffer2D) (w : World T D)
    (hv : HostValid env b w) (r1 : Vec2i) (hr : r1 ≠ b.Resolution) (hpos : 0 < r1.x * r1.y)
    (hfit : r1.x * r1.y * (env.sizeofT : Int) ≤ INT_MAX) :
    ∃ b1 w1, Resize env r1 b w = some (b1, w1) ∧
      b1.Resolution = r1 ∧ GetNoElements b1 = r1.x * r1.y ∧ b1.Dirty = true ∧
      (∀ i : Int, 0 ≤ i → i < r1.x * r1.y → deref w1.heap (atIndex b1 i) = some env.zero) ∧
      (∀ x y : Int, 0 ≤ x → x < r1.x → 0 ≤ y → y < r1.y →
        deref w1.heap (at2 b1 x y) = some env.zero) := by
  have hblk : block (released w.heap b.Data ++
      [some (List.replicate (r1.x * r1.y).toNat env.zero)]) (w.heap.length + 1)
      = some (List.replicate (r1.x * r1.y).toNat env.zero) := by
    have := block_append_new (released w.heap b.Data)
      (some (List.replicate (r1.x * r1.y).toNat env.zero))
    rwa [released_length] at this
  have hread : ∀ i : Int, 0 ≤ i → i < r1.x * r1.y →
      deref (released w.heap b.Data ++ [some (List.replicate (r1.x * r1.y).toNat env.zero)])
        ⟨w.heap.length + 1, i⟩ = some env.zero := by
    intro i hi0 hi
    rw [deref_block hblk _ hi0]
    have : i.toNat < (r1.x * r1.y).toNat := by omega
    simp [List.getElem?_replicate, this]
  refine ⟨_, _, Resize_host_alloc env hv (fun h => hr h.symm) hpos hfit, rfl, rfl, rfl, ?_, ?_⟩
  · intro i hi0 hi
    exact hread i hi0 hi
  · intro x y hx0 hx hy0 hy
    obtain ⟨h0, h1⟩ := index_in_range hx0 hx hy0 hy
    exact hread _ h0 h1

/-- Witness of C9 as amended: the buffer `bufFull` of resolution (4,3) holding
`[0..11]` is resized to (3,4), the same element count in another shape. -/
theorem C9_resize_discards_content_witness :
    ∃ b1 w1, Resize envInt ⟨3, 4⟩ bufFull worldSrc = some (b1, w1) ∧
      b1.Resolution = ⟨3, 4⟩ ∧ GetNoElements b1 = 12 ∧ b1.Dirty = true ∧
      deref w1.heap (at2 b1 2 3) = some 0 := by
  obtain ⟨b1, w1, hres, h1, h2, h3, _, hxy⟩ := C9_resize_discards_content envInt bufFull worldSrc
    (by decide) ⟨3, 4⟩ (by decide) (by decide) (by decide)
  exact ⟨b1, w1, hres, h1, h2, h3, hxy 2 3 (by decide) (by decide) (by decide) (by decide)⟩

/-- Counterexample to C10 as stated: `RandomSeedBuffer2D::Resize((32768,16384))`
on a freshly constructed host seed buffer.  The `2^29` seeds are drawn into the
staging array, but in `Set` the byte count `2^31` is narrowed to `-2147483648`,
`malloc` returns `NULL` and `memset` is called on the null pointer: the call
does not complete and no element is filled. -/
theorem C10_random_seed_overflow :
    HostValid envSeed (construct MemoryType.Host "S" false)
      { heap := [], dev := (), randCalls := 0 } ∧
    (0 : Int) < 32768 ∧ (0 : Int) < 16384 ∧
    RandomSeedBuffer2D.Resize envSeed ⟨32768, 16384⟩ (construct MemoryType.Host "S" false)
      { heap := [], dev := (), randCalls := 0 } = none := by
  have hv : HostValid envSeed (construct MemoryType.Host "S" false)
      { heap := [], dev := (), randCalls := 0 } := by decide
  exact ⟨hv, by decide, by decide, RandomSeed_crash envSeed hv (by decide) (by decide) (by decide)⟩

/-- C10 as amended (RandomSeedBuffer2D fill): the generator is the stream
`env.rand`, of which `w.randCalls` values have been drawn before the call.  For
a valid host seed buffer in any prior state and any `w > 0`, `h > 0` whose byte
count `w*h*sizeof(unsigned int)` fits in an `int`,
`RandomSeedBuffer2D::Resize((w,h))` completes; afterwards the buffer has
resolution `(w,h)` and element count `w*h`, exactly `w*h` values have been
drawn, and for every linear index `0 <= i < w*h` element `i` is the `i`-th value
drawn during the call (converted to `unsigned int`), so that no element keeps
its zero or pre-resize value. -/
theorem C10_random_seed_fill (env : Env Nat D) (b : Buffer2D) (w : World Nat D)
    (hv : HostValid env b w) (wd ht : Int) (hw : 0 < wd) (hh : 0 < ht)
    (hfit : wd * ht * (env.sizeofT : Int) ≤ INT_MAX) :
    ∃ b1 w1, RandomSeedBuffer2D.Resize env ⟨wd, ht⟩ b w = some (b1, w1) ∧
      b1.Resolution = ⟨wd, ht⟩ ∧ GetNoElements b1 = wd * ht ∧
      w1.randCalls = w.randCalls + (wd * ht).toNat ∧
      ∀ i : Nat, i < (wd * ht).toNat →
        deref w1.heap (atIndex b1 (i : Int)) = some (toUnsigned (env.rand (w.randCalls + i))) := by
  have hn : 0 < wd * ht := mul_pos hw hh
  have hnlt : ¬ wd * ht < 0 := by omega
  obtain ⟨w1, blk1, hloop, hcalls1, hblk1, hlen1, hvals, hv1, hpne, _⟩ :=
    seedStage_spec env hv (wd * ht).toNat
  obtain ⟨b2, w2, hset, hb2, _, hcalls2, ⟨rest, hblk2⟩, hne2, hframe2⟩ :=
    Set_host_spec env hv1 (r := ⟨wd, ht⟩) hn hfit hblk1 (le_of_eq hlen1.symm) hpne
  have hsrc2 : block w2.heap (w.heap.length + 1) = some blk1 :=
    hframe2 _ blk1 hpne hblk1
  refine ⟨b2, { w2 with heap := w2.heap.set (w.heap.length + 1 - 1) none }, ?_, ?_, ?_, ?_, ?_⟩
  · simp [RandomSeedBuffer2D.Resize, newArray, hnlt, allocBlock, hloop, hset, free, hsrc2]
  · rw [hb2]
  · rw [hb2]; rfl
  · simp only []
    rw [hcalls2, hcalls1]
  · intro i hi
    have hfinal : block (w2.heap.set (w.heap.length + 1 - 1) none) b2.Data
        = some (List.take (wd * ht).toNat blk1 ++ rest) := by
      rw [block_set_other _ hne2 (by omega), hblk2]
    simp only [atIndex]
    rw [deref_block hfinal _ (by omega), Int.toNat_ofNat,
      get?_take_append hi (le_of_eq hlen1.symm), hvals i hi]

/-- Witness of C10 as amended: a fresh host seed buffer is resized to (2,2)
with the generator stream 41, 43, 45, 47, ...; element 2 holds the third value
drawn. -/
theorem C10_random_seed_fill_witness :
    ∃ b1 w1, RandomSeedBuffer2D.Resize envSeed ⟨2, 2⟩ (construct MemoryType.Host "S" false)
        { heap := [], dev := (), randCalls := 0 } = some (b1, w1) ∧
      GetNoElements b1 = 4 ∧ deref w1.heap (atIndex b1 2) = some 45 := by
  obtain ⟨b1, w1, hres, _, hcount, _, hvals⟩ := C10_random_seed_fill envSeed
    (construct MemoryType.Host "S" false) { heap := [], dev := (), randCalls := 0 }
    (by decide) 2 2 (by decide) (by decide) (by decide)
  exact ⟨b1, w1, hres, hcount.trans (by decide), (hvals 2 (by decide)).trans (by decide)⟩

/-- C13 (row-major access): for a buffer of resolution `(w,h)` and in-range
`0 <= x < w`, `0 <= y < h`, the three accessors `operator()(x, y)`,
`operator()(Vec2i(x, y))` and `operator[](y*w + x)` denote the same cell, the
one at the data handle with linear offset `y*w + x`, which lies in
`[0, w*h)`; two different in-range pairs denote different cells. -/
theorem C13_row_major (b : Buffer2D) (wd ht : Int) (hres : b.Resolution = ⟨wd, ht⟩)
    (x y : Int) (hx0 : 0 ≤ x) (hx : x < wd) (hy0 : 0 ≤ y) (hy : y < ht) :
    at2 b x y = atVec b ⟨x, y⟩ ∧ at2 b x y = atIndex b (y * wd + x) ∧
    at2 b x y = ⟨b.Data, y * wd + x⟩ ∧
    0 ≤ (at2 b x y).offset ∧ (at2 b x y).offset < wd * ht ∧
    ∀ x1 y1 : Int, 0 ≤ x1 → x1 < wd → 0 ≤ y1 → y1 < ht → (x1, y1) ≠ (x, y) →
      at2 b x1 y1 ≠ at2 b x y := by
  have hrx : b.Resolution.x = wd := by rw [hres]
  obtain ⟨h0, h1⟩ := index_in_range hx0 hx hy0 hy
  refine ⟨rfl, by simp [at2, atIndex, hrx], by simp [at2, hrx], by simp [at2, hrx, h0],
    by simp only [at2, hrx]; exact h1, ?_⟩
  intro x1 y1 hx10 hx1 hy10 hy1 hne heq
  apply hne
  simp only [at2, hrx, Ref.mk.injEq, true_and] at heq
  have hy_eq : y1 = y := by
    by_contra hyne
    rcases lt_or_gt_of_ne hyne with hlt | hgt
    · have : (y1 + 1) * wd ≤ y * wd := mul_le_mul_of_nonneg_right (by omega) (by omega)
      nlinarith
    · have : (y + 1) * wd ≤ y1 * wd := mul_le_mul_of_nonneg_right (by omega) (by omega)
      nlinarith
  subst hy_eq
  have hx_eq : x1 = x := by omega
  rw [hx_eq]

/-- Witness of C13: in the (4,3) buffer `bufFull` the pair (2,1) is the cell
at offset 6 and differs from the cell of (1,2). -/
theorem C13_row_major_witness :
    at2 bufFull 2 1 = atVec bufFull ⟨2, 1⟩ ∧ at2 bufFull 2 1 = atIndex bufFull 6 ∧
    at2 bufFull 1 2 ≠ at2 bufFull 2 1 := by
  obtain ⟨h1, h2, _, _, _, hinj⟩ := C13_row_major bufFull 4 3 rfl 2 1 (by decide) (by decide)
    (by decide) (by decide)
  exact ⟨h1, h2, hinj 1 2 (by decide) (by decide) (by decide) (by decide) (by decide)⟩
/-- C14 (Destroy is Resize((0,0)) followed by setting dirty): for every buffer
state, `Destroy` is the spec's `Resize((0,0))` followed by `Dirty = true`.  For
every valid host buffer, that is one that satisfies the storage invariant and
the size invariant and whose handle, when not null, is a live block, `Destroy`
completes with resolution (0,0), element count 0, null data and `Dirty == true`,
the other fields unchanged and the storage released.  Every state that a host
buffer reaches from its construction by any sequence of `Free`, `Destroy`,
`Reset`, `Resize`, `Set` and assignment is such a state. -/
theorem C14_destroy_refines (env : Env T D) (b : Buffer2D) (w : World T D) :
    Destroy env b w = DestroySpec env b w ∧
    (b.MemoryType = MemoryType.Host → StorageInv b → SizeInv b →
      (b.Data ≠ NULL → ∃ blk, block w.heap b.Data = some blk) →
      Destroy env b w = some
        ({ b with Data := NULL, Resolution := Vec2i.zero, NoElements := 0, Dirty := true },
         { w with heap := released w.heap b.Data })) ∧
    (∀ (b0 : Buffer2D) (w0 : World T D) (ops : List Op),
      b0.MemoryType = MemoryType.Host → b0.Data = NULL → b0.NoElements = 0 → SizeInv b0 →
      run env ops (b0, w0) = some (b, w) →
      Destroy env b w = some
        ({ b with Data := NULL, Resolution := Vec2i.zero, NoElements := 0, Dirty := true },
         { w with heap := released w.heap b.Data })) := by
  refine ⟨?_, ?_, ?_⟩
  · unfold Destroy DestroySpec
    cases Resize env Vec2i.zero b w with
    | none => rfl
    | some s => rfl
  · intro hm hstor hsize hlive
    refine Destroy_host_live env hm hlive (fun hr => ?_)
    have hcount : b.NoElements = 0 := by
      rw [hsize, hr]; simp [Vec2i.zero]
    refine ⟨hcount, ?_⟩
    by_contra hd
    have := hstor.mp hd
    omega
  · intro b0 w0 ops hm0 hdata hcount hsize0 hrun
    obtain ⟨hs, hmem⟩ := run_stored env ops (b0, w0) (b, w) hrun
      (Or.inl ⟨hm0, fun _ => hdata, fun h => absurd h (by simp [hcount])⟩)
      (fun hdev => by rw [hm0] at hdev; exact absurd hdev (by simp))
    have hs1 : Stored b w := hs
    have hm : b.MemoryType = MemoryType.Host := (hmem : b.MemoryType = b0.MemoryType).trans hm0
    have hsize : SizeInv b := run_sizeInv ops (b0, w0) (b, w) hrun hsize0
    refine Destroy_host_live env hm (Stored_live hs1 hm) (fun hr => ?_)
    have hc0 : b.NoElements = 0 := by
      rw [hsize, hr]; simp [Vec2i.zero]
    refine ⟨hc0, ?_⟩
    rcases hs1 with ⟨_, hnull, _⟩ | ⟨hdev, _⟩
    · exact hnull (by omega)
    · rw [hm] at hdev
      exact absurd hdev (by simp)

/-- Witness of C14: `Destroy` on the valid (4,3) buffer `bufFull`. -/
theorem C14_destroy_refines_witness :
    Destroy envInt bufFull worldSrc = some
      ({ bufFull with Data := NULL, Resolution := Vec2i.zero, NoElements := 0, Dirty := true },
       { worldSrc with heap := [none] }) :=
  (C14_destroy_refines envInt bufFull worldSrc).2.1 rfl (by decide) (by decide)
    (fun _ => ⟨_, rfl⟩)

/-- C16 (assignment preserves the destination's memory space): for every
destination `B` and source `A`, dirty or not, in either memory space and in any
world, whenever `B = A` completes the memory space of `B` is the one it had
before and the memory space of `A` is unchanged.  The assignment does complete
when `A` is clean, when `A` and `B` are valid host buffers with separate
storage, and when `B` is a device buffer in host compilation. -/
theorem C16_assign_keeps_memory_space (env : Env T D) (A B : Buffer2D) (w : World T D) :
    (∀ B1 A1 w1, assign env B A w = some (B1, A1, w1) →
      B1.MemoryType = B.MemoryType ∧ A1.MemoryType = A.MemoryType) ∧
    (A.Dirty = false → ∃ B1 A1 w1, assign env B A w = some (B1, A1, w1)) ∧
    (HostValid env A w → HostValid env B w → (0 < A.NoElements → A.Data ≠ B.Data) →
      ∃ B1 A1 w1, assign env B A w = some (B1, A1, w1)) ∧
    (env.cudaArch = false → B.MemoryType = MemoryType.Device →
      ∃ B1 A1 w1, assign env B A w = some (B1, A1, w1)) := by
  refine ⟨?_, ?_, ?_, ?_⟩
  · intro B1 A1 w1 h
    have hA1 : A1.MemoryType = A.MemoryType := by
      unfold assign at h
      split at h
      · split at h
        · exact absurd h (by simp)
        · simp only [Option.some.injEq, Prod.mk.injEq] at h
          rw [← h.2.1]
      · simp only [Option.some.injEq, Prod.mk.injEq] at h
        rw [← h.2.1]
    refine ⟨?_, hA1⟩
    rcases assign_shape h with ⟨_, hb⟩ | ⟨_, b0, h0, hb⟩
    · rw [hb]
    · obtain ⟨b00, w00, d, h00, hb0⟩ := Set_shape h0
      rw [hb, hb0]
      rcases Resize_shape h00 with ⟨_, hb1, _⟩ | ⟨_, p, d1, hb1⟩ <;> rw [hb1]
  · intro hclean
    exact ⟨{ B with Name := sprintfCopyOf env A.Name }, A, w, by simp [assign, hclean]⟩
  · intro hA hB hne
    by_cases hdirty : A.Dirty = true
    · by_cases hpos : 0 < A.NoElements
      · obtain ⟨b1, w1, _, _, hassign, _⟩ := assign_dirty_host env hA hB hpos hdirty (hne hpos)
        exact ⟨_, _, _, hassign⟩
      · have hn : A.Resolution.x * A.Resolution.y ≤ 0 := by rw [← hA.2.1]; omega
        obtain ⟨hset, hcases⟩ := Set_host_empty env hB hn A.MemoryType A.Data
        rcases hcases with ⟨_, _, hres⟩ | ⟨_, hres⟩
        · exact ⟨{ B with Name := sprintfCopyOf env A.Name }, { A with Dirty := false }, w,
            by simp [assign, hdirty, hset, hres]⟩
        · exact exists_of_isSome3 (by simp [assign, hdirty, hset, hres])
    · exact ⟨{ B with Name := sprintfCopyOf env A.Name }, A, w, by simp [assign, hdirty]⟩
  · intro hc hm
    by_cases hdirty : A.Dirty = true
    · obtain ⟨b1, hset⟩ := Set_device_hostpass env B w hc hm A.MemoryType A.Resolution A.Data
      exact ⟨{ b1 with Name := sprintfCopyOf env A.Name }, { A with Dirty := false }, w,
        by simp [assign, hdirty, hset]⟩
    · exact ⟨{ B with Name := sprintfCopyOf env A.Name }, A, w, by simp [assign, hdirty]⟩

/-- Witness of C16: the dirty host buffer `bufFull` is assigned to a freshly
constructed host buffer, which stays a host buffer. -/
theorem C16_assign_keeps_memory_space_witness :
    ∃ B1 A1 w1, assign envInt (construct MemoryType.Host "B" false) bufFull worldSrc
        = some (B1, A1, w1) ∧
      B1.MemoryType = MemoryType.Host ∧ A1.MemoryType = MemoryType.Host := by
  obtain ⟨hkeep, _, hhost, _⟩ := C16_assign_keeps_memory_space envInt bufFull
    (construct MemoryType.Host "B" false) worldSrc
  obtain ⟨B1, A1, w1, hassign⟩ := hhost (by decide) (by decide) (fun _ => by decide)
  exact ⟨B1, A1, w1, hassign, hkeep B1 A1 w1 hassign⟩

/-- C17 (copy-construction is a conditional deep copy): let the new object be
default-constructed by the base class with any memory type, name and dirty
flag.  For every source `A` with `Dirty == false` (in particular one holding
`w*h > 0` elements) the copy constructor performs no `Set`: the new buffer has
resolution (0,0), element count 0 and a null data handle, so that none of its
cells can be read, and source and world are unchanged; when `A` holds elements
its resolution is not that of the new buffer.  When `A` is a valid dirty host
buffer holding `w*h > 0` elements and the new object is a host buffer, the new
buffer receives the resolution, the element count and the elements of `A`. -/
theorem C17_copy_construct (env : Env T D) (m0 : MemoryType) (pName0 : String) (dirty0 : Bool)
    (A : Buffer2D) (w : World T D) :
    (A.Dirty = false →
      copyConstruct env m0 pName0 dirty0 A w
        = some ({ construct m0 pName0 dirty0 with Name := sprintfCopyOf env A.Name }, A, w) ∧
      ({ construct m0 pName0 dirty0 with Name := sprintfCopyOf env A.Name } : Buffer2D).Resolution
        = Vec2i.zero ∧
      GetNoElements { construct m0 pName0 dirty0 with Name := sprintfCopyOf env A.Name } = 0 ∧
      GetData { construct m0 pName0 dirty0 with Name := sprintfCopyOf env A.Name } = NULL ∧
      (∀ i : Int, deref w.heap
        (atIndex { construct m0 pName0 dirty0 with Name := sprintfCopyOf env A.Name } i) = none) ∧
      (0 < A.Resolution.x * A.Resolution.y → A.Resolution ≠ Vec2i.zero)) ∧
    (A.Dirty = true → HostValid env A w → 0 < A.NoElements →
      ∃ N A1 w1, copyConstruct env MemoryType.Host pName0 dirty0 A w = some (N, A1, w1) ∧
        N.Resolution = A.Resolution ∧ N.NoElements = A.NoElements ∧
        A1 = { A with Dirty := false } ∧
        ∀ i : Int, 0 ≤ i → i < A.NoElements →
          (deref w.heap (atIndex A i)).isSome ∧
          deref w1.heap (atIndex N i) = deref w.heap (atIndex A i)) := by
  constructor
  · intro hclean
    refine ⟨by simp [copyConstruct, assign, hclean], rfl, rfl, rfl, ?_, ?_⟩
    · intro i
      simp [deref, atIndex, construct, block]
    · intro hpos hzero
      rw [hzero] at hpos
      simp [Vec2i.zero] at hpos
  · intro hdirty hA hpos
    have hN : HostValid env (construct MemoryType.Host pName0 dirty0) w :=
      ⟨rfl, by simp [construct, Vec2i.zero], fun _ => rfl,
        fun h => absurd h (by simp [construct])⟩
    have hne : A.Data ≠ (construct MemoryType.Host pName0 dirty0).Data := by
      obtain ⟨_, blk, hblk, _⟩ := hA.2.2.2 hpos
      have h1 := (block_some_pos hblk).1
      intro hcontra
      rw [hcontra] at h1
      simp [construct] at h1
    obtain ⟨b1, w1, blkA, rest, hassign, hb1, hblkA, hlenA, hblk1, _⟩ :=
      assign_dirty_host env hA hN hpos hdirty hne
    refine ⟨_, _, w1, hassign, by rw [hb1], by rw [hb1], rfl, ?_⟩
    intro i hi0 hi
    have hlt : i.toNat < A.NoElements.toNat := by omega
    simp only [atIndex]
    rw [deref_block hblk1 _ hi0, deref_block hblkA _ hi0, get?_take_append hlt hlenA]
    refine ⟨?_, rfl⟩
    have : i.toNat < blkA.length := by omega
    simp [List.getElem?_eq_getElem this]

/-- Witness of C17: copy-construction from a clean copy of `bufFull` gives an
empty buffer. -/
theorem C17_copy_construct_witness :
    copyConstruct envInt MemoryType.Host "Buffer" false { bufFull with Dirty := false } worldSrc
      = some ({ construct MemoryType.Host "Buffer" false with Name := "Copy of A" },
              { bufFull with Dirty := false }, worldSrc) ∧
    ∃ N A1 w1, copyConstruct envInt MemoryType.Host "Buffer" false bufFull worldSrc
        = some (N, A1, w1) ∧ N.Resolution = ⟨4, 3⟩ ∧ deref w1.heap (atIndex N 6) = some 6 := by
  refine ⟨((C17_copy_construct envInt MemoryType.Host "Buffer" false
    { bufFull with Dirty := false } worldSrc).1 rfl).1, ?_⟩
  obtain ⟨N, A1, w1, hc, hres, _, _, hvals⟩ :=
    (C17_copy_construct envInt MemoryType.Host "Buffer" false bufFull worldSrc).2 rfl
      (by decide) (by decide)
  exact ⟨N, A1, w1, hc, hres, (hvals 6 (by decide) (by decide)).2.trans (by decide)⟩

/-- C18 (Destroy and Free agree on host buffers): for every host buffer state
that satisfies the storage invariant (data is null exactly when the element
count is 0) and the size invariant, and whose handle, when not null, is a live
block, `Destroy()` and `Free()` complete with the same final state: resolution
(0,0), element count 0, null data, `Dirty == true`, memory space and name
unchanged, and the same world, in which the storage has been released. -/
theorem C18_destroy_eq_free (env : Env T D) (b : Buffer2D) (w : World T D)
    (hm : b.MemoryType = MemoryType.Host) (hstor : b.Data = NULL ↔ b.NoElements = 0)
    (hsize : SizeInv b) (hlive : b.Data ≠ NULL → ∃ blk, block w.heap b.Data = some blk) :
    Destroy env b w = Free env b w ∧
    Free env b w = some
      ({ b with Data := NULL, Resolution := Vec2i.zero, NoElements := 0, Dirty := true },
       { w with heap := released w.heap b.Data }) := by
  have hfree := Free_host_live env hm hlive
  refine ⟨?_, hfree⟩
  rw [hfree]
  refine Destroy_host_live env hm hlive (fun hr => ?_)
  have hcount : b.NoElements = 0 := by
    rw [hsize, hr]; simp [Vec2i.zero]
  exact ⟨hcount, hstor.mpr hcount⟩

/-- Witness of C18: `Destroy` and `Free` on the (4,3) buffer `bufFull`. -/
theorem C18_destroy_eq_free_witness :
    Destroy envInt bufFull worldSrc = Free envInt bufFull worldSrc ∧
    Free envInt bufFull worldSrc = some
      ({ bufFull with Data := NULL, Resolution := Vec2i.zero, NoElements := 0, Dirty := true },
       { worldSrc with heap := [none] }) :=
  C18_destroy_eq_free envInt bufFull worldSrc rfl (by decide) (by decide) (fun _ => ⟨_, rfl⟩)

/-- Counterexample to C19 as stated: `Set(Host, (-1,5), NULL)` on the valid
host buffer `bufFull`.  The product `-5` passes the test `NoElements <= 0`, so
nothing is copied, but the element count stored is `-5`, not 0. -/
theorem C19_negative_shape_count :
    HostValid envInt bufFull worldSrc ∧ ((-1 : Int) * 5 ≤ 0) ∧
    Set envInt MemoryType.Host ⟨-1, 5⟩ NULL bufFull worldSrc = some
      ({ bufFull with Data := NULL, Resolution := ⟨-1, 5⟩, NoElements := -5, Dirty := true },
       { worldSrc with heap := [none] }) ∧
    GetNoElements ({ bufFull with Data := NULL, Resolution := ⟨-1, 5⟩, NoElements := -5,
                                  Dirty := true } : Buffer2D) ≠ 0 := by
  exact ⟨by decide, by decide, rfl, by decide⟩

/-- C19 as amended (Set to an empty shape never reads the source): for a valid
host buffer and a resolution `(w,h)` with `w*h <= 0`, `Set(m, (w,h), src)`
completes for every source space `m` and every source pointer `src`, null or
dangling included, and its result does not depend on `m` or `src`: it is the
result of `Resize((w,h))`.  Afterwards the element count is `w*h`, which is 0
when `w` and `h` are non-negative, the data handle is null and the stored
resolution is `(w,h)`; when `(w,h)` already was the resolution, buffer and world
are unchanged, the dirty flag included. -/
theorem C19_set_empty_shape (env : Env T D) (b : Buffer2D) (w : World T D)
    (hv : HostValid env b w) (r : Vec2i) (hn : r.x * r.y ≤ 0) (m : MemoryType) (src : Nat) :
    ∃ b1 w1, Set env m r src b w = some (b1, w1) ∧
      Set env m r src b w = Set env MemoryType.Host r NULL b w ∧
      Set env m r src b w = Resize env r b w ∧
      GetNoElements b1 = r.x * r.y ∧ (0 ≤ r.x → 0 ≤ r.y → GetNoElements b1 = 0) ∧
      GetData b1 = NULL ∧ b1.Resolution = r ∧
      (b.Resolution = r → b1 = b ∧ w1 = w) := by
  obtain ⟨hset, hcases⟩ := Set_host_empty env hv hn m src
  obtain ⟨hset0, _⟩ := Set_host_empty env hv hn MemoryType.Host NULL
  have hzero : ∀ n : Int, n = r.x * r.y → 0 ≤ r.x → 0 ≤ r.y → n = 0 := by
    intro n hn1 hx hy
    have := mul_nonneg hx hy
    omega
  rcases hcases with ⟨hr, hdata, hres⟩ | ⟨hr, hres⟩
  · refine ⟨b, w, by rw [hset, hres], by rw [hset, hset0], hset, ?_, ?_, hdata, hr,
      fun _ => ⟨rfl, rfl⟩⟩
    · rw [← hr]; exact hv.2.1
    · exact hzero _ (by rw [← hr]; exact hv.2.1)
  · refine ⟨{ b with Data := NULL, Resolution := r, NoElements := r.x * r.y, Dirty := true },
      { w with heap := released w.heap b.Data }, by rw [hset, hres], by rw [hset, hset0], hset,
      rfl, ?_, rfl, rfl, fun h => absurd h hr⟩
    exact hzero _ rfl

/-- Witness of C19 as amended: `Set(Device, (0,5), NULL)` on the valid host
buffer `bufFull` releases the storage and stores the resolution (0,5). -/
theorem C19_set_empty_shape_witness :
    ∃ b1 w1, Set envInt MemoryType.Device ⟨0, 5⟩ NULL bufFull worldSrc = some (b1, w1) ∧
      GetNoElements b1 = 0 ∧ GetData b1 = NULL ∧ b1.Resolution = ⟨0, 5⟩ := by
  obtain ⟨b1, w1, hset, _, _, _, hzero, hdata, hres, _⟩ := C19_set_empty_shape envInt bufFull
    worldSrc (by decide) ⟨0, 5⟩ (by decide) MemoryType.Device NULL
  exact ⟨b1, w1, hset, hzero (by decide) (by decide), hdata, hres⟩

end ExposureRender
